import Mathlib

/-!
Verification of the GIAS planning core (intentional agent).

This file gives a shallow embedding, in Lean 4, of the planning core of the
repository:

* `src/core/intent/action_matcher.py`  (`ActionMatcher`)
* `src/core/intent/action_selector.py` (`ActionSelector`)
* `src/core/intent/planner.py`         (`RecursivePlanner`)
* `src/core/intentional_agent.py`      (`IntentionalAgent.plan_intention`,
  `IntentionalAgent.break_down_intention`)
* `src/core/actions/models.py`         (`ActionDef`, `ActionMatch`)
* `src/core/intent/domain_profile.py`  (`DomainProfile`)
* `src/kg/action_store.py`             (`ActionStore.search_actions_by_vector`)

Modelling conventions:

* Python floats are modelled as exact rationals (`ℚ`).  All score formulas in
  the source are short arithmetic expressions, so exact arithmetic matches the
  intent of the code; where a claim says "within floating-point tolerance" the
  rational statement is the exact counterpart.
* Python dicts are association lists (`List (String × α)`); insertion order is
  preserved as in CPython, and assignment to an existing key keeps its
  position (`setAssoc`).
* Python string values in slot maps are `String`; `None` is `Option.none`.
* Calls into external collaborators (LLM, Neo4j, embedding service) are fields
  of a `Collab` structure returning `Except String α`: `.error` models a
  raised exception.  Code that swallows exceptions (`try/except`) pattern
  matches on the `Except`; code without a handler propagates the `.error`.
* Regular-expression synonym rewrites of `DomainProfile.normalize` are
  modelled as opaque string-transformer functions (each `re.sub(pat, repl, ·)`
  with fixed pattern and replacement denotes one such function).
-/

namespace Gias

/-! ### String helpers (Python semantics, kernel-computable)

Lean's own `String.trim`, `String.splitOn`, `String.startsWith` are
implemented on byte positions and do not reduce well inside proofs, so the
Python string operations used by the source are re-implemented structurally
over `List Char`.
-/

/-- Python's `\s` (whitespace class of `str.strip` / `re.sub(r"\s+", ...)`). -/
def isPySpace (c : Char) : Bool :=
  c = ' ' || c = '\t' || c = '\n' || c = '\r' || c = '\x0b' || c = '\x0c'

/-- Python `str.strip()` on a character list. -/
def pyStripL (l : List Char) : List Char :=
  ((l.dropWhile isPySpace).reverse.dropWhile isPySpace).reverse

/-- Python `str.strip()`. -/
def pyStrip (s : String) : String := ⟨pyStripL s.data⟩

/-- One pass of `re.sub(r"\s+", " ", t)`: each maximal run of whitespace
becomes a single space.  The flag records whether the previous character was
part of a whitespace run. -/
def collapseWsAux : Bool → List Char → List Char
  | _, [] => []
  | prevSpace, c :: rest =>
    if isPySpace c then
      if prevSpace then collapseWsAux true rest
      else ' ' :: collapseWsAux true rest
    else c :: collapseWsAux false rest

/-- `re.sub(r"\s+", " ", t)`. -/
def collapseWs (s : String) : String := ⟨collapseWsAux false s.data⟩

/-- Python `s.startswith("_")`. -/
def startsWithUnderscore (s : String) : Bool :=
  match s.data with
  | [] => false
  | c :: _ => c = '_'

/-- The part of `l` before the first occurrence of `c`; all of `l` if `c`
does not occur (`s.split(c, 1)[0]`). -/
def takeBeforeChar (c : Char) : List Char → List Char
  | [] => []
  | x :: xs => if x = c then [] else x :: takeBeforeChar c xs

/-- Python `c in s` for a single character. -/
def strContainsChar (s : String) (c : Char) : Bool := s.data.contains c

/-- Python `needle in hay` (substring containment), by brute force. -/
def listContainsSub (needle hay : List Char) : Bool :=
  if needle.isPrefixOf hay then true
  else match hay with
    | [] => needle.isEmpty
    | _ :: rest => listContainsSub needle rest

/-- Python `needle in hay` on strings. -/
def strContainsSub (needle hay : String) : Bool :=
  listContainsSub needle.data hay.data

/-- Python `str.lower()` (ASCII, which is all the source compares). -/
def pyLower (s : String) : String := ⟨s.data.map Char.toLower⟩

/-- Python `"sep".join(parts)`. -/
def joinWith (sep : String) : List String → String
  | [] => ""
  | [x] => x
  | x :: xs => x ++ sep ++ joinWith sep xs

/-- Dict assignment `d[k] = v`: replace in place if the key exists (CPython
keeps its insertion position), otherwise append. -/
def setAssoc (l : List (String × α)) (k : String) (v : α) : List (String × α) :=
  if (l.lookup k).isSome then
    l.map (fun p => if p.1 = k then (k, v) else p)
  else l ++ [(k, v)]

/-- Dict `d.setdefault(k, v)`: add only if absent. -/
def setDefaultAssoc (l : List (String × α)) (k : String) (v : α) :
    List (String × α) :=
  if (l.lookup k).isSome then l else l ++ [(k, v)]

/-- Iteration order of a Python `set` built by first insertion, i.e. the
distinct elements of `l` in order of first occurrence. -/
def dedupAppend (acc : List String) (l : List String) : List String :=
  l.foldl (fun ks n => if n ∈ ks then ks else ks ++ [n]) acc

/-- Python `float(v)` succeeding on a string: optional sign, then either
digits (with optional fraction) or a leading-dot fraction, with an optional
exponent; or `inf`/`infinity`/`nan`.  Whitespace around the literal is
stripped by `float` itself. -/
def digits1 (l : List Char) : Bool × List Char :=
  match l with
  | c :: rest =>
    if c.isDigit then
      let rest' := rest.dropWhile Char.isDigit
      (true, rest')
    else (false, l)
  | [] => (false, [])

def pyFloatTail (l : List Char) : Bool :=
  -- mantissa: digits [. digits] | . digits ; then optional exponent
  let afterMantissa : Option (List Char) :=
    match digits1 l with
    | (true, rest) =>
      match rest with
      | '.' :: rest2 => some (rest2.dropWhile Char.isDigit)
      | _ => some rest
    | (false, _) =>
      match l with
      | '.' :: rest2 =>
        match digits1 rest2 with
        | (true, rest3) => some rest3
        | (false, _) => none
      | _ => none
  match afterMantissa with
  | none => false
  | some rest =>
    match rest with
    | [] => true
    | e :: rest2 =>
      if e = 'e' || e = 'E' then
        let rest3 := match rest2 with
          | s :: r => if s = '+' || s = '-' then r else rest2
          | [] => rest2
        match digits1 rest3 with
        | (true, []) => true
        | _ => false
      else false

def pyFloatParses (s : String) : Bool :=
  let l := pyStripL s.data
  let body := match l with
    | c :: rest => if c = '+' || c = '-' then rest else l
    | [] => l
  let w := pyLower ⟨body⟩
  if w = "inf" || w = "infinity" || w = "nan" then true
  else pyFloatTail body

/-! ### `DomainProfile` (`src/core/intent/domain_profile.py`)

The dataclass has fields `name`, `synonym_rules`, `action_alias`; the matcher
additionally reads the optional attributes `slot_map` and `enum_alias` via
`getattr(self.domain, ..., {})`, so they appear here as fields defaulting to
the empty mapping.  A synonym rule `(pat, repl)` is applied as
`re.sub(pat, repl, t)`; each such rule is modelled as one total function
`String → String`. -/
structure DomainProfile where
  name : String := "generic"
  synonym_rules : List (String → String) := []
  action_alias : List (String × List String) := []
  slot_map : List (String × List String) := []
  enum_alias : List (String × List (String × String)) := []

/-- `DomainProfile.normalize`: strip, collapse whitespace, apply the synonym
rewrites in order.  (The source skips rules whose regex fails to compile;
total functions have no failing case.) -/
def DomainProfile.normalize (d : DomainProfile) (text : String) : String :=
  let t := pyStrip text
  let t := collapseWs t
  d.synonym_rules.foldl (fun acc r => r acc) t

/-! ### Parameter schemas and scoring (`ActionMatcher._score_params`)

A row of `ActionStore.get_action_params` is a dict with keys `key`, `type`,
`required`, `enum`, ... ; the fields the matcher reads are modelled.  A `key`
that is missing or not a string in Python is modelled as `""` (both are
skipped by the same `if not key or not isinstance(key, str)` test).  Slot
values are strings. -/
structure ParamSpec where
  key : String
  type : String := ""
  required : Bool := false
  enum : List String := []
deriving Repr

/-- One entry of the `param_evidence` diagnostic list.  The source appends
heterogeneous dicts; absent dict keys are `none`. -/
structure Evidence where
  param : Option String := none
  type : Option String := none
  required : Option Bool := none
  filled : Option Bool := none
  value : Option String := none
  score : Option ℚ := none
  reason : String
deriving Repr

/-- `ActionMatcher._get_slot_value`: direct key match, then the profile's
`slot_map` aliases. -/
def get_slot_value (dom : DomainProfile) (slots : List (String × String))
    (param_key : String) : Option String :=
  if slots.isEmpty then none
  else match slots.lookup param_key with
    | some v => some v
    | none =>
      ((dom.slot_map.lookup param_key).getD []).findSome? fun alt =>
        slots.lookup alt

/-- `ActionMatcher._normalize_enum_value`. -/
def normalize_enum_value (dom : DomainProfile) (v : String) : String :=
  pyStrip (dom.normalize v)

/-- `ActionMatcher._map_enum_alias`. -/
def map_enum_alias (dom : DomainProfile) (param_key norm_v : String) : String :=
  match (dom.enum_alias.lookup param_key).getD [] |>.lookup norm_v with
  | some mapped => mapped
  | none => norm_v

/-- The `(1) required 可填性 gate` loop of `_score_params`: the first required
parameter (with a usable key) whose slot value is missing or
empty-after-strip, as its evidence entry. -/
def required_gate_failure (dom : DomainProfile) (slots : List (String × String)) :
    List ParamSpec → Option Evidence
  | [] => none
  | p :: rest =>
    if p.required && !(p.key = "") then
      match get_slot_value dom slots p.key with
      | none =>
        some { param := some p.key, required := some true, filled := some false,
               reason := "required_missing" }
      | some v =>
        if pyStrip v = "" then
          some { param := some p.key, required := some true, filled := some false,
                 reason := "required_missing" }
        else required_gate_failure dom slots rest
    else required_gate_failure dom slots rest

/-- State of the `(2) 計分` loop: `bindings`, `total`, `total_w`, evidence. -/
structure ScoreState where
  bindings : List (String × String) := []
  total : ℚ := 0
  total_w : ℚ := 0
  evidence : List Evidence := []

/-- One iteration of the scoring loop of `_score_params`. -/
def score_param_step (dom : DomainProfile) (slots : List (String × String))
    (st : ScoreState) (p : ParamSpec) : ScoreState :=
  if p.key = "" then st
  else
    let ptype := pyLower (pyStrip p.type)
    let w : ℚ := if p.required then 2 else 1
    match get_slot_value dom slots p.key with
    | none =>
      { st with evidence := st.evidence ++
          [{ param := some p.key, type := some ptype, required := some p.required,
             filled := some false, score := some 0, reason := "optional_missing" }] }
    | some v =>
      if pyStrip v = "" then
        { st with evidence := st.evidence ++
            [{ param := some p.key, type := some ptype, required := some p.required,
               filled := some false, score := some 0, reason := "optional_missing" }] }
      else
        let (score, reason, bindings) :=
          if ptype = "enum" then
            let allowed := p.enum
            let norm_v := normalize_enum_value dom v
            let mapped_v := map_enum_alias dom p.key norm_v
            if mapped_v ∈ allowed then
              ((1 : ℚ), "enum_match", setAssoc st.bindings p.key mapped_v)
            else
              ((0 : ℚ), "enum_mismatch", setAssoc st.bindings p.key v)
          else if ptype = "string" then
            let s := pyStrip v
            if s = "" then ((0 : ℚ), "string_empty", setAssoc st.bindings p.key v)
            else ((0.8 : ℚ), "string_present", setAssoc st.bindings p.key v)
          else if ptype = "int" || ptype = "integer" || ptype = "number" || ptype = "float" then
            if pyFloatParses v then
              ((0.7 : ℚ), "number_parse_ok", setAssoc st.bindings p.key v)
            else ((0 : ℚ), "number_parse_fail", setAssoc st.bindings p.key v)
          else
            ((0.5 : ℚ), "unknown_type:" ++ ptype, setAssoc st.bindings p.key v)
        { bindings := bindings,
          total := st.total + w * score,
          total_w := st.total_w + w,
          evidence := st.evidence ++
            [{ param := some p.key, type := some ptype, required := some p.required,
               filled := some true, value := some v, score := some score,
               reason := reason }] }

/-- `ActionMatcher._score_params`: returns
`(fillable, bindings, param_score, param_evidence)`. -/
def score_params (dom : DomainProfile) (slots : List (String × String))
    (params : List ParamSpec) :
    Bool × List (String × String) × ℚ × List Evidence :=
  match required_gate_failure dom slots params with
  | some ev => (false, [], 0, [ev])
  | none =>
    let st := params.foldl (score_param_step dom slots) {}
    let param_score : ℚ := if st.total_w > 0 then st.total / st.total_w else 0
    (true, st.bindings, param_score, st.evidence)

/-! ### Action models (`src/core/actions/models.py`) -/

/-- Catalog metadata attached by the matcher (`action_id`, `kg_node`,
`source`). -/
structure ActionMeta where
  action_id : Option String := none
  kg_node : Option String := none
  source : Option String := none
deriving Repr

/-- `ActionDef`. -/
structure ActionDef where
  name : String
  description : String
  meta : ActionMeta := {}
deriving Repr

/-- The evidence dict built by `ActionMatcher.match_actions` for each match. -/
structure MatchEvidence where
  matched_text : String
  normalized_intent : String
  vector_score : ℚ
  alias_score : ℚ
  alias_weight : ℚ
  base_score : ℚ
  param_score : ℚ
  final_score : ℚ
  slots_used : Bool
  effective_slots_keys : List String
  param_evidence : List Evidence
  w_base : ℚ
  w_param : ℚ
  min_param_score : ℚ
  min_final_score : ℚ
  param_gate_enabled : Bool
  params_schema_available : Bool
deriving Repr

/-- `ActionMatch`. -/
structure ActionMatch where
  action : ActionDef
  score : ℚ
  base_score : ℚ := 0
  param_score : ℚ := 0
  final_score : ℚ := 0
  fillable : Bool := true
  bindings : List (String × String) := []
  thresholds : List (String × ℚ) := []
  reject_reason : String := ""
  evidence : Option MatchEvidence := none
deriving Repr

/-- `ActionMatch.from_base`. -/
def ActionMatch.from_base (action : ActionDef) (base_score : ℚ)
    (param_score : ℚ) (fillable : Bool) (bindings : List (String × String))
    (w_base w_param : ℚ) (thresholds : List (String × ℚ))
    (reject_reason : String) (evidence : Option MatchEvidence) : ActionMatch :=
  let final := w_base * base_score + w_param * param_score
  { action := action, score := final, base_score := base_score,
    param_score := param_score, final_score := final, fillable := fillable,
    bindings := bindings, thresholds := thresholds,
    reject_reason := reject_reason, evidence := evidence }

/-- `ActionMatch.is_acceptable`. -/
def ActionMatch.is_acceptable (m : ActionMatch) : Bool :=
  if !m.fillable then false
  else
    let t_param := (m.thresholds.lookup "param").getD 0
    let t_final := (m.thresholds.lookup "final").getD 0
    t_param ≤ m.param_score && t_final ≤ m.final_score && 0 < m.final_score

/-! ### The action matcher (`src/core/intent/action_matcher.py`) -/

/-- `ActionMatcher._alias_score`: counts alias trigger strings occurring as
substrings of the normalized text; `min(1.0, hits * 0.25)`. -/
def alias_score (dom : DomainProfile) (action_name normalized_text : String) : ℚ :=
  let aliases := (dom.action_alias.lookup action_name).getD []
  let hits := (aliases.filter fun trig =>
    let t := pyStrip trig
    !(t = "") && strContainsSub t normalized_text).length
  min 1 ((hits : ℚ) * 0.25)

/-- A row returned by the catalog's vector search (keys `name`,
`description`, `score`, `id`; `kg_node`/`source` are absent in the rows the
store produces but read with `.get` by the matcher). -/
structure Row where
  name : String := ""
  description : String := ""
  score : ℚ := 0
  id : Option String := none
  kg_node : Option String := none
  source : Option String := none
deriving Repr

/-- The external collaborators of the planning core.  Each `Except String`
result models a Python call that may raise (`.error e` ≘ an exception `e`).

* `parse_intent`  — `llm.tasks.intent_tasks.parse_intent` (sub-intent extraction)
* `embed`         — `LLMEmbedder.embed_text`
* `ensure_index`  — `ActionStore.ensure_action_desc_index` (catalog index
  machinery, out of core scope; its `kg.query` calls are not guarded)
* `vector_query_nodes` / `query_vector_fallback` — the two attempts inside
  `ActionStore.search_actions_by_vector`
* `get_action_params` — `ActionStore.get_action_params` (an unguarded
  `kg.query`)
* `read_param_keys` — the `kg.read` of `ActionSelector._to_prompt_format`,
  giving the ordered `HAS_PARAM` keys of an action
* `decompose`     — `LLMDecomposer.decompose`; the source wraps the LLM call
  in `try/except` and returns `None` on any error, hence a total `Option`
* `scope_decide`  — `ScopeGate.decide` as called (guarded) by
  `plan_intention`
-/
structure Candidate where
  name : String := ""
  description : String := ""
  slots : List (String × String) := []

structure ScopeDecision where
  can_execute : Bool
  reason : String

structure SubSpec where
  id : String := "unknown"
  intent : String := ""
  action : String := ""
  is_atomic : Bool := false
  atomic_source : Option String := none
  scheduled_start : String := ""

structure Rel where
  type : String := ""
  from_id : String := ""
  to_id : String := ""
deriving Repr, DecidableEq

structure DecompResult where
  sub_intents : List SubSpec := []
  relationships : List Rel := []

structure Collab where
  parse_intent : String → Except String (List Candidate)
  embed : String → Except String (List ℚ)
  ensure_index : Nat → Except String Unit
  vector_query_nodes : List ℚ → Nat → ℚ → Except String (List Row)
  query_vector_fallback : List ℚ → Nat → ℚ → Except String (List Row)
  get_action_params : String → Except String (List ParamSpec)
  read_param_keys : String → Except String (List String)
  decompose : String → List (String × String) → Option DecompResult
  scope_decide : String → List (String × String) → Except String ScopeDecision

/-- `ActionStore.search_actions_by_vector`: try the adapter's
`vector_query_nodes` (exceptions swallowed); if it raises or returns no rows,
fall back to the direct Cypher query, whose exceptions are also swallowed
into `[]`. -/
def search_actions_by_vector (C : Collab) (vector : List ℚ) (top_k : Nat)
    (min_score : ℚ) : List Row :=
  let fallback : List Row :=
    match C.query_vector_fallback vector top_k min_score with
    | .ok rows => rows
    | .error _ => []
  match C.vector_query_nodes vector top_k min_score with
  | .ok rows => if rows.isEmpty then fallback else rows
  | .error _ => fallback

/-- The keyword parameters of `ActionMatcher.match_actions`, with the
source's default values (`min_score` is the similarity floor the source
calls `min_score`). -/
structure MatchArgs where
  top_k : Nat := 10
  min_score : ℚ := 0.75
  allow_fallback : Bool := true
  alias_weight : ℚ := 0.15
  w_base : ℚ := 0.4
  w_param : ℚ := 0.6
  min_param_score : ℚ := 0.35
  min_final_score : ℚ := 0.55
  enable_param_gate : Bool := true

/-- The schema lookup of the per-row loop of `match_actions`: fetched only
when effective slots exist; a raised `get_action_params` is swallowed into
`[]` (`except Exception: params_schema = []`). -/
def row_params_schema (C : Collab) (use_slots : Bool) (action_name : String) :
    List ParamSpec :=
  if use_slots then
    match C.get_action_params action_name with
    | .ok l => l
    | .error _ => []
  else []

/-- The `(fillable, bindings, param_score, param_ev)` tuple of the per-row
loop: parameter scoring when a schema is available, the schema-unavailable
marker when not, and the unconditional default without effective slots. -/
def row_param_result (dom : DomainProfile)
    (effective_slots : List (String × String)) (use_slots : Bool)
    (params_schema : List ParamSpec) :
    Bool × List (String × String) × ℚ × List Evidence :=
  if use_slots then
    if !params_schema.isEmpty then score_params dom effective_slots params_schema
    else (true, [], (0 : ℚ), [{ reason := "params_schema_unavailable" : Evidence }])
  else (true, [], (0 : ℚ), [])

/-- The `reject_reason` chain of the per-row loop. -/
def gate_reject (args : MatchArgs) (should_gate fillable : Bool)
    (param_score final_score : ℚ) : String :=
  if should_gate then
    if !fillable then "required_params_missing"
    else if param_score < args.min_param_score then "param_score_below_threshold"
    else if final_score < args.min_final_score then "final_score_below_threshold"
    else ""
  else ""

/-- The body of the `for r in rows` loop of `match_actions` after the
`action_name` default (`r.get("name") or "UnnamedAction"`) has been applied:
`none` models `continue` (a gated-out candidate). -/
def match_scored_row (C : Collab) (dom : DomainProfile) (args : MatchArgs)
    (intention norm_intent : String) (effective_slots : List (String × String))
    (use_slots : Bool) (action_name : String) (r : Row) : Option ActionMatch :=
  let vec_score := r.score
  let a_score := alias_score dom action_name norm_intent
  let base_score := (1 - args.alias_weight) * vec_score + args.alias_weight * a_score
  let action_def : ActionDef :=
    { name := action_name, description := r.description,
      meta := { action_id := r.id, kg_node := r.kg_node, source := r.source } }
  let params_schema := row_params_schema C use_slots action_name
  let spr := row_param_result dom effective_slots use_slots params_schema
  let fillable := spr.1
  let bindings := spr.2.1
  let param_score := spr.2.2.1
  let param_ev := spr.2.2.2
  let final_score := args.w_base * base_score + args.w_param * param_score
  let should_gate := use_slots && args.enable_param_gate && !params_schema.isEmpty
  let reject_reason := gate_reject args should_gate fillable param_score final_score
  if should_gate && !(reject_reason = "") then none
  else some (ActionMatch.from_base action_def base_score param_score fillable
    bindings args.w_base args.w_param
    [("param", args.min_param_score), ("final", args.min_final_score)]
    reject_reason
    (some { matched_text := intention, normalized_intent := norm_intent,
            vector_score := vec_score, alias_score := a_score,
            alias_weight := args.alias_weight, base_score := base_score,
            param_score := param_score, final_score := final_score,
            slots_used := use_slots,
            effective_slots_keys := effective_slots.map Prod.fst,
            param_evidence := param_ev, w_base := args.w_base,
            w_param := args.w_param, min_param_score := args.min_param_score,
            min_final_score := args.min_final_score,
            param_gate_enabled := should_gate,
            params_schema_available := !params_schema.isEmpty }))

/-- The full per-row body (`action_name = r.get("name") or "UnnamedAction"`,
then the scored-row computation). -/
def match_one_row (C : Collab) (dom : DomainProfile) (args : MatchArgs)
    (intention norm_intent : String) (effective_slots : List (String × String))
    (use_slots : Bool) (r : Row) : Option ActionMatch :=
  match_scored_row C dom args intention norm_intent effective_slots use_slots
    (if r.name = "" then "UnnamedAction" else r.name) r

/-- The per-row loop and final sort of `match_actions`
(`matches.sort(key=lambda m: m.final_score, reverse=True)`). -/
def match_rows (C : Collab) (dom : DomainProfile) (args : MatchArgs)
    (intention norm_intent : String) (effective_slots : List (String × String))
    (use_slots : Bool) (rows : List Row) : List ActionMatch :=
  (rows.filterMap
      (match_one_row C dom args intention norm_intent effective_slots use_slots)
    ).mergeSort fun a b => decide (b.final_score ≤ a.final_score)

/-- `ActionMatcher.match_actions`.  `slots = []` models `slots=None` (both
give no effective slots).  A propagated exception (`.error`) can come only
from `embed` or `ensure_index`; the vector search and the schema lookup
swallow their own failures. -/
def match_actions (C : Collab) (dom : DomainProfile) (intention : String)
    (slots : List (String × String)) (args : MatchArgs) :
    Except String (List ActionMatch) :=
  let norm_intent := dom.normalize intention
  let effective_slots := slots.filter fun kv => !startsWithUnderscore kv.1
  let use_slots := !effective_slots.isEmpty
  match C.embed norm_intent with
  | .error e => .error e
  | .ok q_vec =>
    let dim := q_vec.length
    match C.ensure_index dim with
    | .error e => .error e
    | .ok _ =>
      let rows := search_actions_by_vector C q_vec args.top_k args.min_score
      let rows :=
        if rows.isEmpty && args.allow_fallback then
          search_actions_by_vector C q_vec args.top_k 0
        else rows
      .ok (match_rows C dom args intention norm_intent effective_slots use_slots rows)

/-! ### Sub-intent breakdown (`IntentionalAgent.break_down_intention`)

`SubIntent.raw` is debug provenance ("not used for logic" per the data
model) and is omitted from the embedding. -/
structure SubIntent where
  intent : String
  slots : List (String × String) := []

/-- `_safe_str`. -/
def safe_str (x : String) : String := pyStrip x

/-- `_normalize_slots`: keep the dict, `setdefault` the two reserved keys. -/
def normalize_slots (norm : String) (slots : List (String × String)) :
    List (String × String) :=
  let s := setDefaultAssoc slots "_source_text" norm
  setDefaultAssoc s "_normalized_text" norm

/-- `_token_overlap_ratio`: character-set overlap of the two strings. -/
def token_overlap (a b : String) : ℚ :=
  let a := safe_str a
  let b := safe_str b
  if a = "" || b = "" then 0
  else
    let sa := a.data.dedup
    let sb := b.data.dedup
    let inter := (sa.filter fun c => c ∈ sb).length
    let denom := max 1 ((sa ++ sb.filter fun c => !(c ∈ sa)).length)
    (inter : ℚ) / (denom : ℚ)

/-- The per-candidate body of `break_down_intention`'s loop. -/
def candidate_to_sub (dom : DomainProfile) (norm : String) (c : Candidate) :
    SubIntent :=
  let name := safe_str c.name
  let desc := safe_str c.description
  let slots := normalize_slots norm c.slots
  let canon := pyStrip (if desc = "" then (if name = "" then norm else name) else desc)
  let canon := dom.normalize canon
  let slot_keys := (slots.map Prod.fst).filter fun k => !startsWithUnderscore k
  let overlap := token_overlap norm canon
  if slot_keys.length = 0 && overlap < 0.25 then
    { intent := norm, slots := slots }
  else
    { intent := canon, slots := slots }

/-- `IntentionalAgent.break_down_intention`: LLM-driven split with the
fallback sub-intent on an exception or on an empty candidate list.  Never
raises (the whole body is inside `try/except`). -/
def break_down_intention (C : Collab) (dom : DomainProfile)
    (intention : String) : List SubIntent :=
  let norm := dom.normalize intention
  match C.parse_intent norm with
  | .error _ =>
    [{ intent := norm,
       slots := [("_source_text", norm), ("_normalized_text", norm)] }]
  | .ok candidates =>
    let subs := candidates.map (candidate_to_sub dom norm)
    if subs.isEmpty then [{ intent := norm, slots := normalize_slots norm [] }]
    else subs

/-! ### The action selector (`src/core/intent/action_selector.py`) -/

/-- `ActionSelector._fmt_param_key`: split on `_`, capitalize each part
(`id` becomes `ID`), join.  (Python's `split` never yields an empty list, so
the `"Param"` default is unreachable and kept for fidelity.) -/
def fmt_param_key_part (part : String) : String :=
  if pyLower part = "id" then "ID"
  else match part.data with
    | [] => ""
    | c :: cs => ⟨c.toUpper :: cs⟩

/-- Python `key.split("_")` on a character list. -/
def splitUnderscore : List Char → List (List Char)
  | [] => [[]]
  | c :: rest =>
    match splitUnderscore rest with
    | [] => [[]]   -- unreachable: splitUnderscore never returns []
    | w :: ws => if c = '_' then [] :: w :: ws else (c :: w) :: ws

def fmt_param_key (key : String) : String :=
  let parts := (splitUnderscore key.data).map fun w => fmt_param_key_part ⟨w⟩
  if parts.isEmpty then "Param" else joinWith "" parts

/-- `ActionSelector._to_prompt_format`: one `(signature, description)` entry
per match, the signature built from the ordered `HAS_PARAM` keys of the
knowledge graph.  The `kg.read` call has no handler, so its exception
propagates. -/
def to_prompt_format_loop (C : Collab) (known : List (String × String)) :
    List ActionMatch → Except String (List (String × String))
  | [] => .ok known
  | m :: rest =>
    let a_name := m.action.name
    let a_desc := m.action.description
    match C.read_param_keys a_name with
    | .error e => .error e
    | .ok rows =>
      let param_keys := (rows.filter fun k => !(k = "")).map fmt_param_key
      let signature := a_name ++ "(" ++ joinWith ", " param_keys ++ ")"
      to_prompt_format_loop C (setAssoc known signature a_desc) rest

def to_prompt_format (C : Collab) (actions : List ActionMatch) :
    Except String (List (String × String)) :=
  to_prompt_format_loop C [] actions

/-- The `action_map` update of `select_actions`: keep the best-scoring match
per action name (strictly better replaces; insertion position of an existing
key is kept). -/
def update_best (map : List (String × ActionMatch)) (m : ActionMatch) :
    List (String × ActionMatch) :=
  match map.lookup m.action.name with
  | none => map ++ [(m.action.name, m)]
  | some old =>
    if old.score < m.score then
      map.map fun p => if p.1 = m.action.name then (p.1, m) else p
    else map

/-- `ActionSelector.select_actions`: re-match every sub-intention (note: the
matcher is called with the text only — no slots and default keyword
arguments), keep the best match per action name, then format.  The matcher's
or `kg.read`'s exceptions propagate. -/
def select_actions_loop (C : Collab) (dom : DomainProfile)
    (map : List (String × ActionMatch)) :
    List SubIntent → Except String (List (String × ActionMatch))
  | [] => .ok map
  | si :: rest =>
    match match_actions C dom si.intent [] {} with
    | .error e => .error e
    | .ok ms => select_actions_loop C dom (ms.foldl update_best map) rest

def select_actions (C : Collab) (dom : DomainProfile)
    (sub_intentions : List SubIntent) : Except String (List (String × String)) :=
  match select_actions_loop C dom [] sub_intentions with
  | .error e => .error e
  | .ok action_map => to_prompt_format C (action_map.map Prod.snd)

/-! ### The recursive planner (`src/core/intent/planner.py`)

A plan node is the dict built by `RecursivePlanner.plan` /
`IntentionalAgent.plan_intention`.  Keys that a given node does not carry are
modelled by their `Option`/default value: `is_atomic` is absent on plain
composite nodes and `n.get("is_atomic") is True` is `false` for both "absent"
and "False", so a plain `Bool` defaulting to `false` is observationally
faithful; `action` is `none` where the dict has no `action` key. -/

/-- Debug payload of the scope-gate rejection / failure results. -/
inductive ScopeDebug where
  | rejected (reason : String)
  | failed (error : String)
deriving Repr, DecidableEq

/-- An entry of `illegal_atoms` (plan validation). -/
structure IllegalAtom where
  id : String
  action : String
  action_name : String
deriving Repr, DecidableEq

structure NodeData where
  id : String
  intent : String
  depth : Nat
  scheduled_start : String
  type : String
  is_atomic : Bool := false
  atomic_source : Option String := none
  action : Option String := none
  error : Option String := none
  execution_logic : List Rel := []
  reason : String := ""
  unmatched_sub_intentions : List String := []
  matched_sub_intentions : List String := []
  debug_sub_intentions : List String := []
  -- `sorted(list(allowed_action_names))` in the source; modelled in
  -- first-insertion order (membership, which is all the logic uses, agrees)
  debug_allowed_actions : List String := []
  debug_scope_gate : Option ScopeDebug := none
  debug_illegal_atomic_nodes : List IllegalAtom := []
deriving Repr

inductive PlanNode where
  | mk (data : NodeData) (sub_plans : List PlanNode)

def PlanNode.data : PlanNode → NodeData
  | .mk d _ => d

def PlanNode.sub_plans : PlanNode → List PlanNode
  | .mk _ s => s

/-- `RecursivePlanner.plan`, written with explicit fuel
`fuel = max_depth - depth` so that the bounded recursion of the source is
structural.  `fuel = 0` is exactly the source's `depth >= max_depth` ceiling
(`max_depth - depth = 0 ↔ depth ≥ max_depth` on integers as called, with
`depth` counting up by 1 toward `max_depth`). -/
def plan_aux (decompose : String → List (String × String) → Option DecompResult)
    (available_actions : List (String × String)) :
    Nat → String → Nat → String → String → PlanNode
  | 0, intent, depth, scheduled_start, node_id =>
    -- depth >= max_depth: forced atomic leaf, decomposer not called
    .mk { id := node_id, intent := intent, depth := depth,
          scheduled_start := scheduled_start, type := "leaf_forced_atomic",
          is_atomic := true, atomic_source := some "new_generated" } []
  | fuel + 1, intent, depth, scheduled_start, node_id =>
    match decompose intent available_actions with
    | none =>
      -- decomposition failure: composite node annotated with an error
      .mk { id := node_id, intent := intent, depth := depth,
            scheduled_start := scheduled_start, type := "composite",
            error := some "Decomposition failed" } []
    | some result =>
      if result.sub_intents.isEmpty then
        .mk { id := node_id, intent := intent, depth := depth,
              scheduled_start := scheduled_start, type := "leaf_no_children",
              is_atomic := true,
              execution_logic := result.relationships } []
      else
        let children := result.sub_intents.map fun sub =>
          if sub.is_atomic then
            PlanNode.mk { id := sub.id, intent := sub.intent,
                          depth := depth + 1,
                          scheduled_start := sub.scheduled_start,
                          type := "atomic", is_atomic := true,
                          atomic_source := sub.atomic_source,
                          action := some sub.action } []
          else
            plan_aux decompose available_actions fuel sub.intent (depth + 1)
              sub.scheduled_start sub.id
        .mk { id := node_id, intent := intent, depth := depth,
              scheduled_start := scheduled_start, type := "composite",
              execution_logic := result.relationships } children

/-- `RecursivePlanner.plan(intent, available_actions, depth=depth,
max_depth=max_depth, scheduled_start=..., node_id=...)`. -/
def RecursivePlanner.plan
    (decompose : String → List (String × String) → Option DecompResult)
    (intent : String) (available_actions : List (String × String))
    (depth max_depth : Nat) (scheduled_start node_id : String) : PlanNode :=
  plan_aux decompose available_actions (max_depth - depth) intent depth
    scheduled_start node_id

/-- The depths at which `plan` invokes `decompose` (mirror of the recursion
of `plan_aux`: one call per non-leaf visit, none at the depth ceiling, none
for an atomic child). -/
def plan_call_depths
    (decompose : String → List (String × String) → Option DecompResult)
    (available_actions : List (String × String)) :
    Nat → String → Nat → List Nat
  | 0, _, _ => []
  | fuel + 1, intent, depth =>
    depth :: (match decompose intent available_actions with
      | none => []
      | some result =>
        result.sub_intents.flatMap fun sub =>
          if sub.is_atomic then []
          else plan_call_depths decompose available_actions fuel sub.intent (depth + 1))

/-- The depths of the `decompose` calls of
`RecursivePlanner.plan(intent, aa, depth=depth, max_depth=max_depth, ...)`. -/
def RecursivePlanner.call_depths
    (decompose : String → List (String × String) → Option DecompResult)
    (intent : String) (available_actions : List (String × String))
    (depth max_depth : Nat) : List Nat :=
  plan_call_depths decompose available_actions (max_depth - depth) intent depth

mutual
/-- `_walk` of `plan_intention`: the node and, recursively, its
`sub_plans`. -/
def walkPlan : PlanNode → List PlanNode
  | .mk d subs => .mk d subs :: walkPlans subs

def walkPlans : List PlanNode → List PlanNode
  | [] => []
  | p :: ps => walkPlan p ++ walkPlans ps
end

/-! ### The planning orchestrator (`IntentionalAgent.plan_intention`) -/

/-- The two configuration flags `plan_intention` reads from
`agent_config` (`enable_scope_gate`, default `False`;
`scope_gate_strict`, default `True`). -/
structure Config where
  enable_scope_gate : Bool := false
  scope_gate_strict : Bool := true

/-- `_extract_action_name` of the plan-validation step. -/
def extract_action_name (action_text : String) : String :=
  let s := pyStrip action_text
  if s = "" then ""
  else if strContainsChar s '(' then pyStrip ⟨takeBeforeChar '(' s.data⟩
  else s

/-- `_action_name_from_sig`. -/
def action_name_from_sig (sig : String) : String :=
  let s := pyStrip sig
  if strContainsChar s '(' then pyStrip ⟨takeBeforeChar '(' s.data⟩ else s

/-- The `allowed_action_names` set, as its first-insertion iteration order:
`{_action_name_from_sig(k) for k in chosen_actions if k}`. -/
def allowed_action_names (chosen_actions : List (String × String)) :
    List String :=
  dedupAppend []
    (((chosen_actions.map Prod.fst).filter fun k => !(k = "")).map
      action_name_from_sig)

/-- Step 5 of `plan_intention` (plan validation): walk the tree, keep the
nodes flagged atomic, and report those whose nonempty extracted action name
is outside the allowed set; nodes whose `action` is absent (or not a string)
are skipped, as are empty extracted names. -/
def collect_illegal_atoms (allowed : List String) (plan : PlanNode) :
    List IllegalAtom :=
  let nodes := walkPlan plan
  let atomic_nodes := nodes.filter fun n =>
    n.data.type = "atomic" || n.data.is_atomic
  atomic_nodes.filterMap fun n =>
    match n.data.action with
    | none => none
    | some act =>
      let act_name := extract_action_name act
      if !(act_name = "") && !(act_name ∈ allowed) then
        some { id := n.data.id, action := act, action_name := act_name }
      else none

/-- Step 1 of `plan_intention`: match every sub-intent (with its slots and
the matcher's default keyword arguments), accumulating the unmatched
intent texts and the matched `(SubIntent, matches)` pairs in order.  The
matcher's exceptions are not handled here and propagate. -/
def match_stage (C : Collab) (dom : DomainProfile) :
    List SubIntent →
    Except String (List String × List (SubIntent × List ActionMatch))
  | [] => .ok ([], [])
  | s :: rest =>
    match match_actions C dom s.intent s.slots {} with
    | .error e => .error e
    | .ok ms =>
      match match_stage C dom rest with
      | .error e => .error e
      | .ok (unmatched, pairs) =>
        if ms.isEmpty then .ok (s.intent :: unmatched, pairs)
        else .ok (unmatched, (s, ms) :: pairs)

/-- Step 3 of `plan_intention` (the scope gate): `some node` is an early
`return` of an unresolved verdict, `none` means "proceed to the planner".
The gate call sits in a `try/except`: a raised exception aborts only under
the strict policy. -/
def scope_stage (C : Collab) (cfg : Config) (norm : String)
    (chosen_actions : List (String × String)) (subs : List SubIntent)
    (allowed_names : List String) : Option PlanNode :=
  if !cfg.enable_scope_gate then none
  else
    let allowed_actions_basic := chosen_actions.map fun kv =>
      (action_name_from_sig kv.1, kv.2)
    match C.scope_decide norm allowed_actions_basic with
    | .ok decision =>
      if !decision.can_execute then
        let d : NodeData :=
          { id := "root", intent := norm, depth := 0,
            scheduled_start := "N/A", type := "leaf_unresolved",
            reason := if decision.reason = "" then "Scope gate rejected."
                      else decision.reason,
            matched_sub_intentions := subs.map SubIntent.intent,
            debug_sub_intentions := subs.map SubIntent.intent,
            debug_allowed_actions := allowed_names,
            debug_scope_gate := some (.rejected decision.reason) }
        some (.mk d [])
      else none
    | .error e =>
      if cfg.scope_gate_strict then
        let d : NodeData :=
          { id := "root", intent := norm, depth := 0,
            scheduled_start := "N/A", type := "leaf_unresolved",
            reason := "Scope gate failed: " ++ e,
            matched_sub_intentions := subs.map SubIntent.intent,
            debug_sub_intentions := subs.map SubIntent.intent,
            debug_allowed_actions := allowed_names,
            debug_scope_gate := some (.failed e) }
        some (.mk d [])
      else none

/-- Step 7 of `plan_intention`: attach the debug metadata to the root of a
validated plan (`plan["debug"]["sub_intentions"]`,
`plan["debug"]["allowed_actions"]`). -/
def attach_debug (plan : PlanNode) (subs : List SubIntent)
    (allowed_names : List String) : PlanNode :=
  match plan with
  | .mk d sub_plans =>
    .mk { d with debug_sub_intentions := subs.map SubIntent.intent,
                 debug_allowed_actions := allowed_names } sub_plans

/-- `IntentionalAgent.plan_intention`.  The result is `.ok node` (a plan
tree or an unresolved verdict) unless an unhandled collaborator exception
propagates, in which case it is `.error`. -/
def plan_intention (C : Collab) (dom : DomainProfile) (cfg : Config)
    (intention : String) : Except String PlanNode :=
  let norm := dom.normalize intention
  let subs := break_down_intention C dom norm
  match match_stage C dom subs with
  | .error e => .error e
  | .ok (unmatched, matched_pairs) =>
    if !unmatched.isEmpty then
      let d : NodeData :=
        { id := "root", intent := norm, depth := 0,
          scheduled_start := "N/A", type := "leaf_unresolved",
          reason := "Some sub-intents have no matched actions.",
          unmatched_sub_intentions := unmatched,
          matched_sub_intentions := (matched_pairs.map Prod.fst).map SubIntent.intent,
          debug_sub_intentions := subs.map SubIntent.intent }
      .ok (.mk d [])
    else
      match select_actions C dom (matched_pairs.map Prod.fst) with
      | .error e => .error e
      | .ok chosen_actions =>
        let allowed_names := allowed_action_names chosen_actions
        if allowed_names.isEmpty then
          let d : NodeData :=
            { id := "root", intent := norm, depth := 0,
              scheduled_start := "N/A", type := "leaf_unresolved",
              reason := "No allowed actions selected.",
              matched_sub_intentions := (matched_pairs.map Prod.fst).map SubIntent.intent,
              debug_sub_intentions := subs.map SubIntent.intent }
          .ok (.mk d [])
        else
          match scope_stage C cfg norm chosen_actions subs allowed_names with
          | some node => .ok node
          | none =>
            let plan := RecursivePlanner.plan C.decompose norm chosen_actions
              0 4 "N/A" "root"
            let illegal_atoms := collect_illegal_atoms allowed_names plan
            if !illegal_atoms.isEmpty then
              let d : NodeData :=
                { id := "root", intent := norm, depth := 0,
                  scheduled_start := "N/A", type := "leaf_unresolved",
                  reason := "Planner produced actions outside allowed set.",
                  matched_sub_intentions := subs.map SubIntent.intent,
                  debug_sub_intentions := subs.map SubIntent.intent,
                  debug_allowed_actions := allowed_names,
                  debug_illegal_atomic_nodes := illegal_atoms }
              .ok (.mk d [])
            else
              .ok (attach_debug plan subs allowed_names)

/-! ### Concrete scenarios

Small deterministic collaborators and inputs used to evaluate the
definitions on concrete runs (spec §8 example scenarios and variations). -/

/-- Spec example scenario 1: slots for a `LocateExhibit`-style action. -/
def scenario1_slots : List (String × String) :=
  [("target_type", "booth"), ("target_name", "A12")]

def scenario1_params : List ParamSpec :=
  [{ key := "target_type", type := "enum", required := true,
     enum := ["exhibit_zone", "booth", "exhibit"] },
   { key := "target_name", type := "string", required := true }]

/-- Spec example scenario 2: one required enum parameter. -/
def scenario2_params : List ParamSpec :=
  [{ key := "facility_type", type := "enum", required := true,
     enum := ["restroom"] }]

/-- A deterministic collaborator: the catalog always returns actions `A`
(similarity 0.9, with one required string parameter `p`) and `B`
(similarity 0.8, no parameters); the sub-intent LLM is down (so the
orchestrator falls back to one sub-intent); the decomposer emits a single
atomic step with an empty `action` string. -/
def demoCollab : Collab :=
  { parse_intent := fun _ => .error "llm down",
    embed := fun _ => .ok [1],
    ensure_index := fun _ => .ok (),
    vector_query_nodes := fun _ _ _ =>
      .ok [{ name := "A", description := "dA", score := 0.9 },
           { name := "B", description := "dB", score := 0.8 }],
    query_vector_fallback := fun _ _ _ => .ok [],
    get_action_params := fun n =>
      if n = "A" then .ok [{ key := "p", type := "string", required := true }]
      else .ok [],
    read_param_keys := fun n => if n = "A" then .ok ["p"] else .ok [],
    decompose := fun _ _ =>
      some { sub_intents := [{ id := "s1", intent := "x", action := "",
                               is_atomic := true,
                               atomic_source := some "pre_defined" }] },
    scope_decide := fun _ _ => .ok { can_execute := true, reason := "" } }

/-- `demoCollab` with a failing embedding service. -/
def embedFailCollab : Collab :=
  { demoCollab with embed := fun _ => .error "embed down" }

/-- `demoCollab` with an empty catalog (both search paths yield no rows). -/
def noRowsCollab : Collab :=
  { demoCollab with vector_query_nodes := fun _ _ _ => .ok [] }

/-- `demoCollab` whose decomposer returns no sub-intents
(`leaf_no_children`). -/
def noChildrenCollab : Collab :=
  { demoCollab with decompose := fun _ _ => some {} }

/-- A decomposer emitting one atomic step invoking the allowed action `B`. -/
def legalAtomDecomp : String → List (String × String) → Option DecompResult :=
  fun _ _ =>
    some { sub_intents := [{ id := "s1", intent := "x", action := "B(x)",
                             is_atomic := true,
                             atomic_source := some "pre_defined" }] }

/-- `demoCollab` whose decomposer emits one atomic step invoking the
allowed action `B`. -/
def legalAtomCollab : Collab :=
  { demoCollab with decompose := legalAtomDecomp }

/-- A collaborator whose optional services all fail but whose embedding,
index bootstrap and parameter-key reads succeed. -/
def flakyCollab : Collab :=
  { parse_intent := fun _ => .error "down",
    embed := fun _ => .ok [1],
    ensure_index := fun _ => .ok (),
    vector_query_nodes := fun _ _ _ => .error "down",
    query_vector_fallback := fun _ _ _ => .error "down",
    get_action_params := fun _ => .error "down",
    read_param_keys := fun _ => .ok [],
    decompose := fun _ _ => none,
    scope_decide := fun _ _ => .error "down" }

/-- A decomposer declaring a single pre-defined atomic sub-intent. -/
def atomicDecomp : String → List (String × String) → Option DecompResult :=
  fun _ _ => some { sub_intents := [{ id := "s1", intent := "go", action := "",
                                      is_atomic := true,
                                      atomic_source := some "pre_defined" }] }

/-- The single sub-intent with effective slots used for the selector
scenario. -/
def slottedSub : SubIntent := { intent := "t", slots := [("k", "v")] }

/-- The fallback sub-intent `break_down_intention` produces for the intent
`"x"` when the sub-intent LLM raises. -/
def fallbackSubX : SubIntent :=
  { intent := "x", slots := [("_source_text", "x"), ("_normalized_text", "x")] }

/-! ### Predicates used in theorem statements -/

/-- "The parameter resolves to no value or to an empty/whitespace string". -/
def missing_or_blank : Option String → Prop
  | none => True
  | some v => pyStrip v = ""

/-- A node is flagged atomic by the plan validator
(`n.get("type") == "atomic" or n.get("is_atomic") is True`). -/
def atomic_flag (n : PlanNode) : Prop :=
  n.data.type = "atomic" ∨ n.data.is_atomic = true

instance : DecidablePred missing_or_blank := fun o => by
  unfold missing_or_blank
  match o with
  | none => exact inferInstanceAs (Decidable True)
  | some v => exact inferInstanceAs (Decidable (_ = _))

instance : DecidablePred atomic_flag := fun n =>
  inferInstanceAs (Decidable (_ ∨ _))

/-! ## Theorems -/

/-- The required-parameter gate finds a failure whenever some required
parameter with a usable key is missing or blank, and reports it with a
single `required_missing` evidence entry. -/
lemma required_gate_failure_reason (dom : DomainProfile)
    (slots : List (String × String)) :
    ∀ params : List ParamSpec,
      (∃ p ∈ params, p.required = true ∧ ¬ p.key = "" ∧
        missing_or_blank (get_slot_value dom slots p.key)) →
      ∃ ev, required_gate_failure dom slots params = some ev ∧
        ev.required = some true ∧ ev.filled = some false ∧
        ev.reason = "required_missing"
  | [], h => by simp at h
  | p :: rest, h => by
    unfold required_gate_failure
    by_cases hc : p.required = true ∧ ¬ p.key = ""
    · obtain ⟨hr, hk⟩ := hc
      rcases hv : get_slot_value dom slots p.key with _ | v
      · exact ⟨{ param := some p.key, required := some true,
                 filled := some false, reason := "required_missing" },
          by simp [hr, hk, hv], rfl, rfl, rfl⟩
      · by_cases hblank : pyStrip v = ""
        · exact ⟨{ param := some p.key, required := some true,
                   filled := some false, reason := "required_missing" },
            by simp [hr, hk, hv, hblank], rfl, rfl, rfl⟩
        · have hrest : ∃ q ∈ rest, q.required = true ∧ ¬ q.key = "" ∧
              missing_or_blank (get_slot_value dom slots q.key) := by
            obtain ⟨q, hq, hq1, hq2, hq3⟩ := h
            rcases List.mem_cons.mp hq with rfl | hq'
            · rw [hv] at hq3
              exact absurd hq3 hblank
            · exact ⟨q, hq', hq1, hq2, hq3⟩
          have := required_gate_failure_reason dom slots rest hrest
          simpa [hr, hk, hv, hblank] using this
    · have hrest : ∃ q ∈ rest, q.required = true ∧ ¬ q.key = "" ∧
          missing_or_blank (get_slot_value dom slots q.key) := by
        obtain ⟨q, hq, hq1, hq2, hq3⟩ := h
        rcases List.mem_cons.mp hq with rfl | hq'
        · exact absurd ⟨hq1, hq2⟩ hc
        · exact ⟨q, hq', hq1, hq2, hq3⟩
      have := required_gate_failure_reason dom slots rest hrest
      have hb : (p.required && !(p.key = "")) = false := by
        rcases Decidable.em (p.required = true) with hr | hr
        · have : p.key = "" := by
            by_contra hk
            exact hc ⟨hr, hk⟩
          simp [this]
        · simp [Bool.eq_false_iff.mpr hr]
      simpa [hb] using this

/-- C7: if some required parameter (with a usable key) resolves to no value
or to an empty/whitespace string, `_score_params` short-circuits to
`fillable=false`, empty bindings and `param_score=0.0`, with a single
`required_missing` evidence entry (so no further parameter was scored). -/
theorem C7_required_gate_short_circuit (dom : DomainProfile)
    (slots : List (String × String)) (params : List ParamSpec)
    (h : ∃ p ∈ params, p.required = true ∧ ¬ p.key = "" ∧
      missing_or_blank (get_slot_value dom slots p.key)) :
    (score_params dom slots params).1 = false ∧
    (score_params dom slots params).2.1 = [] ∧
    (score_params dom slots params).2.2.1 = 0 ∧
    ((score_params dom slots params).2.2.2.map Evidence.reason) =
      ["required_missing"] := by
  obtain ⟨ev, hev, _, _, hr⟩ := required_gate_failure_reason dom slots params h
  simp [score_params, hev, hr]

/-- C7 witness: spec example scenario 2 — empty slots against one required
enum parameter yield exactly `(false, {}, 0.0)`. -/
theorem C7_witness :
    (score_params {} [] scenario2_params).1 = false ∧
    (score_params {} [] scenario2_params).2.1 = [] ∧
    (score_params {} [] scenario2_params).2.2.1 = 0 ∧
    ((score_params {} [] scenario2_params).2.2.2.map Evidence.reason) =
      ["required_missing"] :=
  C7_required_gate_short_circuit {} [] scenario2_params
    ⟨{ key := "facility_type", type := "enum", required := true,
       enum := ["restroom"] },
     by simp [scenario2_params], rfl, by simp,
     by simp [get_slot_value, missing_or_blank]⟩

/-- C6 counterexample: on spec example scenario 1 the parameter score is
9/10, not 1.0 (the required string parameter scores 0.8, not 1.0). -/
theorem C6_counterexample :
    (score_params {} scenario1_slots scenario1_params).2.2.1 = 0.9 ∧
    ¬ ((0.9 : ℚ) = 1) := by
  constructor
  · simp +decide [score_params, scenario1_slots, scenario1_params,
      required_gate_failure, get_slot_value, score_param_step,
      normalize_enum_value, map_enum_alias, DomainProfile.normalize,
      pyStrip, pyStripL, collapseWs, collapseWsAux, isPySpace, pyLower,
      setAssoc, List.lookup]
    norm_num
  · norm_num

/-- C6 amended: scenario 1 yields `fillable=true`, bindings for both
parameters, and `param_score = 0.9` (enum match 1.0 and string presence 0.8,
each with required weight 2.0). -/
theorem C6_amended_scenario1 :
    (score_params {} scenario1_slots scenario1_params).1 = true ∧
    (score_params {} scenario1_slots scenario1_params).2.1 =
      [("target_type", "booth"), ("target_name", "A12")] ∧
    (score_params {} scenario1_slots scenario1_params).2.2.1 = 0.9 := by
  refine ⟨?_, ?_, ?_⟩ <;>
    simp +decide [score_params, scenario1_slots, scenario1_params,
      required_gate_failure, get_slot_value, score_param_step,
      normalize_enum_value, map_enum_alias, DomainProfile.normalize,
      pyStrip, pyStripL, collapseWs, collapseWsAux, isPySpace, pyLower,
      setAssoc, List.lookup] <;>
    norm_num

/-- Any match the per-row body emits satisfies the weighted score formula,
and is fillable whenever the parameter gate is enabled. -/
lemma match_scored_row_some {C : Collab} {dom : DomainProfile} {args : MatchArgs}
    {i ni an : String} {eff : List (String × String)} {us : Bool} {r : Row}
    {m : ActionMatch}
    (h : match_scored_row C dom args i ni eff us an r = some m) :
    m.final_score = args.w_base * m.base_score + args.w_param * m.param_score ∧
    (args.enable_param_gate = true → m.fillable = true) := by
  unfold match_scored_row at h
  simp only [] at h
  split at h
  · exact absurd h (by simp)
  · rename_i hcond
    injection h with h
    subst h
    refine ⟨by simp [ActionMatch.from_base], ?_⟩
    intro hg
    simp only [ActionMatch.from_base]
    by_cases hus : us = true
    · subst hus
      by_cases hps : (row_params_schema C true an).isEmpty = true
      · simp [row_param_result, hps]
      · by_contra hfill
        simp only [Bool.not_eq_true] at hfill
        simp [gate_reject, hg, hps, hfill] at hcond
    · simp only [Bool.not_eq_true] at hus
      subst hus
      simp [row_param_result]

/-- Members of the sorted match list come from the per-row body. -/
lemma mem_match_rows {C : Collab} {dom : DomainProfile} {args : MatchArgs}
    {i ni : String} {eff : List (String × String)} {us : Bool}
    {rows : List Row} {m : ActionMatch}
    (h : m ∈ match_rows C dom args i ni eff us rows) :
    ∃ r ∈ rows, match_one_row C dom args i ni eff us r = some m := by
  unfold match_rows at h
  have hp := List.mergeSort_perm
    (rows.filterMap (match_one_row C dom args i ni eff us))
    (fun a b => decide (b.final_score ≤ a.final_score))
  exact List.mem_filterMap.mp (hp.mem_iff.mp h)

/-- A successful `match_actions` call returns a sorted per-row match list
for some row set obtained from the catalog. -/
lemma match_actions_ok_elim {C : Collab} {dom : DomainProfile} {i : String}
    {sl : List (String × String)} {args : MatchArgs} {ms : List ActionMatch}
    (h : match_actions C dom i sl args = .ok ms) :
    ∃ rows, ms = match_rows C dom args i (dom.normalize i)
      (sl.filter fun kv => !startsWithUnderscore kv.1)
      (!(sl.filter fun kv => !startsWithUnderscore kv.1).isEmpty) rows := by
  unfold match_actions at h
  rcases he : C.embed (dom.normalize i) with e | q
  · simp only [he] at h
    exact absurd h (by simp)
  · simp only [he] at h
    rcases hi : C.ensure_index q.length with e | u
    · simp only [hi] at h
      exact absurd h (by simp)
    · simp only [hi] at h
      exact ⟨_, (Except.ok.inj h).symm⟩

/-- C8: every match returned by `match_actions` satisfies
`final_score = w_base·base_score + w_param·param_score` exactly (the scores
are exact rationals here; the Python floats obey it up to rounding). -/
theorem C8_final_score_formula (C : Collab) (dom : DomainProfile)
    (intention : String) (slots : List (String × String)) (args : MatchArgs)
    (ms : List ActionMatch)
    (h : match_actions C dom intention slots args = .ok ms) :
    ∀ m ∈ ms, m.final_score =
      args.w_base * m.base_score + args.w_param * m.param_score := by
  intro m hm
  obtain ⟨rows, rfl⟩ := match_actions_ok_elim h
  obtain ⟨r, _, hsome⟩ := mem_match_rows hm
  exact (match_scored_row_some hsome).1

/-- C8 witness: a concrete call on the deterministic demo catalog. -/
theorem C8_witness :
    ∃ ms, match_actions demoCollab {} "t" [("k", "v")] {} = .ok ms ∧
      ∀ m ∈ ms, m.final_score =
        ({} : MatchArgs).w_base * m.base_score +
          ({} : MatchArgs).w_param * m.param_score := by
  obtain ⟨ms, hms⟩ : ∃ ms, match_actions demoCollab {} "t" [("k", "v")] {} = .ok ms := by
    unfold match_actions
    simp [demoCollab]
  exact ⟨ms, hms, C8_final_score_formula demoCollab {} "t" [("k", "v")] {} ms hms⟩

/-- C2 counterexample: with `enable_param_gate=False` (and effective slots
and an available schema), `match_actions` returns the match for `A` with
`fillable=false` — an unfillable match is present in the returned list. -/
theorem C2_counterexample :
    ((match_actions demoCollab {} "t" [("k", "v")]
        { enable_param_gate := false }).toOption.map
      (fun l => l.map fun m => (m.action.name, m.fillable))) =
      some [("A", false), ("B", true)] := by
  norm_num +decide [match_actions, match_rows, match_one_row, match_scored_row,
    demoCollab, search_actions_by_vector, alias_score, row_params_schema,
    row_param_result, gate_reject, score_params, required_gate_failure,
    get_slot_value, score_param_step, normalize_enum_value, map_enum_alias,
    pyFloatParses, DomainProfile.normalize, pyStrip, pyStripL, collapseWs,
    collapseWsAux, isPySpace, pyLower, setAssoc, List.lookup,
    ActionMatch.from_base, List.mergeSort, startsWithUnderscore,
    strContainsSub, listContainsSub, joinWith, List.filterMap_cons,
    List.filter_cons, beq_eq_decide]

/-- C2 amended: with the parameter gate enabled, no returned match has
`fillable=false` (with the gate disabled `C2_counterexample` shows one). -/
theorem C2_gate_excludes_unfillable (C : Collab) (dom : DomainProfile)
    (intention : String) (slots : List (String × String)) (args : MatchArgs)
    (ms : List ActionMatch)
    (hgate : args.enable_param_gate = true)
    (h : match_actions C dom intention slots args = .ok ms) :
    ∀ m ∈ ms, m.fillable = true := by
  intro m hm
  obtain ⟨rows, rfl⟩ := match_actions_ok_elim h
  obtain ⟨r, _, hsome⟩ := mem_match_rows hm
  exact (match_scored_row_some hsome).2 hgate

/-- C2 witness: the default-argument call (gate enabled) on the demo
catalog returns only fillable matches. -/
theorem C2_witness :
    ∃ ms, match_actions demoCollab {} "t" [("k", "v")] {} = .ok ms ∧
      ∀ m ∈ ms, m.fillable = true := by
  obtain ⟨ms, hms⟩ : ∃ ms, match_actions demoCollab {} "t" [("k", "v")] {} = .ok ms := by
    unfold match_actions
    simp [demoCollab]
  exact ⟨ms, hms,
    C2_gate_excludes_unfillable demoCollab {} "t" [("k", "v")] {} ms rfl hms⟩

/-- Walk membership distributes over a list of trees. -/
lemma mem_walkPlans {n : PlanNode} {l : List PlanNode} :
    n ∈ walkPlans l ↔ ∃ p ∈ l, n ∈ walkPlan p := by
  induction l with
  | nil => simp [walkPlans]
  | cons p ps ih => simp [walkPlans, ih]

/-- Depth bounds and ceiling shape for the fuel-indexed planner: every node
of `plan_aux fuel · depth` has depth in `[depth, depth + fuel]`, and a node
at exactly `depth + fuel` is atomic — a forced leaf (`new_generated`) or a
decomposer-declared atomic step. -/
lemma plan_aux_walk_depth
    (decompose : String → List (String × String) → Option DecompResult)
    (avail : List (String × String)) :
    ∀ (fuel : Nat) (intent : String) (depth : Nat) (s id : String),
      ∀ n ∈ walkPlan (plan_aux decompose avail fuel intent depth s id),
        depth ≤ n.data.depth ∧ n.data.depth ≤ depth + fuel ∧
        (n.data.depth = depth + fuel → n.data.is_atomic = true ∧
          (n.data.type = "leaf_forced_atomic" ∧
             n.data.atomic_source = some "new_generated" ∨
           n.data.type = "atomic"))
  | 0, intent, depth, s, id => by
    intro n hn
    simp [plan_aux, walkPlan, walkPlans] at hn
    subst hn
    simp [PlanNode.data]
  | fuel + 1, intent, depth, s, id => by
    intro n hn
    unfold plan_aux at hn
    rcases hdec : decompose intent avail with _ | result
    · rw [hdec] at hn
      simp [walkPlan, walkPlans] at hn
      subst hn
      refine ⟨?_, ?_, ?_⟩ <;> simp [PlanNode.data]
    · rw [hdec] at hn
      by_cases hni : result.sub_intents.isEmpty
      · simp only [hni, if_true] at hn
        simp [walkPlan, walkPlans] at hn
        subst hn
        refine ⟨?_, ?_, ?_⟩ <;> simp [PlanNode.data]
      · simp only [hni, if_false, Bool.false_eq_true] at hn
        rw [walkPlan] at hn
        rcases List.mem_cons.mp hn with rfl | hn'
        · refine ⟨?_, ?_, ?_⟩ <;> simp [PlanNode.data]
        · obtain ⟨c, hc, hnc⟩ := mem_walkPlans.mp hn'
          obtain ⟨sub, _, rfl⟩ := List.mem_map.mp hc
          by_cases hat : sub.is_atomic = true
          · simp only [hat, if_true] at hnc
            simp [walkPlan, walkPlans] at hnc
            subst hnc
            refine ⟨by simp [PlanNode.data], by simp [PlanNode.data], ?_⟩
            intro _
            simp [PlanNode.data]
          · simp only [hat, if_false, Bool.false_eq_true] at hnc
            obtain ⟨h1, h2, h3⟩ := plan_aux_walk_depth decompose avail fuel
              sub.intent (depth + 1) sub.scheduled_start sub.id n hnc
            exact ⟨by omega, by omega, fun hc => h3 (by omega)⟩

/-- The decomposer is invoked only strictly below the fuel ceiling. -/
lemma plan_call_depths_bound
    (decompose : String → List (String × String) → Option DecompResult)
    (avail : List (String × String)) :
    ∀ (fuel : Nat) (intent : String) (depth : Nat),
      ∀ d ∈ plan_call_depths decompose avail fuel intent depth,
        depth ≤ d ∧ d < depth + fuel
  | 0, intent, depth => by simp [plan_call_depths]
  | fuel + 1, intent, depth => by
    intro d hd
    unfold plan_call_depths at hd
    rcases List.mem_cons.mp hd with rfl | hd'
    · omega
    · rcases hdec : decompose intent avail with _ | result
      · rw [hdec] at hd'
        simp at hd'
      · rw [hdec] at hd'
        obtain ⟨sub, _, hmem⟩ := List.mem_flatMap.mp hd'
        by_cases hat : sub.is_atomic = true
        · simp [hat] at hmem
        · simp only [hat, if_false, Bool.false_eq_true] at hmem
          obtain ⟨h1, h2⟩ := plan_call_depths_bound decompose avail fuel
            sub.intent (depth + 1) d hmem
          omega

/-- C3 counterexample: with `max_depth = 1`, a decomposer that declares an
atomic sub-intent at the root produces a node at depth 1 of kind `"atomic"`,
not `leaf_forced_atomic` — the claim's characterization of depth-`N` nodes
fails. -/
theorem C3_counterexample :
    ¬ (∀ n ∈ walkPlan (RecursivePlanner.plan atomicDecomp "r" [] 0 1 "N/A" "root"),
        n.data.depth = 1 → n.data.type = "leaf_forced_atomic") := by
  decide

/-- C3 amended: `plan(intent, max_depth=N)` (from depth 0) never produces a
node of depth `> N`; every node at depth `N` is atomic — either a forced
leaf (`leaf_forced_atomic`, `atomic_source="new_generated"`) or an atomic
child declared by the decomposer at depth `N-1` (`"atomic"`); and the
decomposer is only ever called at depths `< N`. -/
theorem C3_depth_bound
    (decompose : String → List (String × String) → Option DecompResult)
    (intent : String) (avail : List (String × String)) (N : Nat)
    (s id : String) :
    (∀ n ∈ walkPlan (RecursivePlanner.plan decompose intent avail 0 N s id),
       n.data.depth ≤ N ∧
       (n.data.depth = N → n.data.is_atomic = true ∧
         (n.data.type = "leaf_forced_atomic" ∧
            n.data.atomic_source = some "new_generated" ∨
          n.data.type = "atomic"))) ∧
    (∀ d ∈ RecursivePlanner.call_depths decompose intent avail 0 N, d < N) := by
  constructor
  · intro n hn
    unfold RecursivePlanner.plan at hn
    rw [Nat.sub_zero] at hn
    obtain ⟨h1, h2, h3⟩ := plan_aux_walk_depth decompose avail N intent 0 s id n hn
    exact ⟨by omega, fun hc => h3 (by omega)⟩
  · intro d hd
    unfold RecursivePlanner.call_depths at hd
    rw [Nat.sub_zero] at hd
    have := plan_call_depths_bound decompose avail N intent 0 d hd
    omega

/-- C3 witness: the depth bound evaluated on the concrete one-level plan. -/
theorem C3_witness :
    (((walkPlan (RecursivePlanner.plan atomicDecomp "r" [] 0 1 "N/A" "root")).map
        (fun n => n.data.depth)).all (fun d => decide (d ≤ 1))) = true ∧
    ((RecursivePlanner.call_depths atomicDecomp "r" [] 0 1).all
        (fun d => decide (d < 1))) = true := by
  constructor
  · rw [List.all_eq_true]
    intro x hx
    obtain ⟨n, hn, rfl⟩ := List.mem_map.mp hx
    simpa using ((C3_depth_bound atomicDecomp "r" [] 1 "N/A" "root").1 n hn).1
  · rw [List.all_eq_true]
    intro d hd
    simpa using (C3_depth_bound atomicDecomp "r" [] 1 "N/A" "root").2 d hd

/-- The matching stage, given each sub-intent's match list, returns exactly
the unmatched intent texts and the matched pairs, in order. -/
lemma match_stage_eq_of_forall {C : Collab} {dom : DomainProfile}
    {subs : List SubIntent} {f : SubIntent → List ActionMatch}
    (h : ∀ s ∈ subs, match_actions C dom s.intent s.slots {} = .ok (f s)) :
    match_stage C dom subs = .ok
      ((subs.filter fun s => (f s).isEmpty).map SubIntent.intent,
       (subs.filter fun s => !(f s).isEmpty).map fun s => (s, f s)) := by
  induction subs with
  | nil => simp [match_stage]
  | cons s rest ih =>
    have hs := h s (List.mem_cons_self s rest)
    have hr := ih fun x hx => h x (List.mem_cons_of_mem s hx)
    unfold match_stage
    rw [hs, hr]
    by_cases he : (f s).isEmpty = true <;> simp [he]

/-- C5: if at least one sub-intent yields zero matches, `plan_intention`
returns the `leaf_unresolved` verdict whose `unmatched_sub_intentions` are
exactly the zero-match sub-intent texts (in order), with no sub-plans. -/
theorem C5_unmatched_all_or_nothing (C : Collab) (dom : DomainProfile)
    (cfg : Config) (t : String) (f : SubIntent → List ActionMatch)
    (h : ∀ s ∈ break_down_intention C dom (dom.normalize t),
        match_actions C dom s.intent s.slots {} = .ok (f s))
    (hne : ¬ ((break_down_intention C dom (dom.normalize t)).filter
        fun s => (f s).isEmpty) = []) :
    plan_intention C dom cfg t = .ok (.mk
      { id := "root", intent := dom.normalize t, depth := 0,
        scheduled_start := "N/A", type := "leaf_unresolved",
        reason := "Some sub-intents have no matched actions.",
        unmatched_sub_intentions :=
          ((break_down_intention C dom (dom.normalize t)).filter
            fun s => (f s).isEmpty).map SubIntent.intent,
        matched_sub_intentions :=
          ((break_down_intention C dom (dom.normalize t)).filter
            fun s => !(f s).isEmpty).map SubIntent.intent,
        debug_sub_intentions :=
          (break_down_intention C dom (dom.normalize t)).map SubIntent.intent }
      []) := by
  unfold plan_intention
  simp only []
  rw [match_stage_eq_of_forall h]
  have hne' : ¬ (((break_down_intention C dom (dom.normalize t)).filter
      fun s => (f s).isEmpty).map SubIntent.intent).isEmpty = true := by
    simp only [List.isEmpty_iff, List.map_eq_nil_iff]
    exact hne
  simp only [hne', Bool.not_false, if_true]
  simp [List.map_map, Function.comp]

/-- C5 witness: a catalog with no rows leaves the single fallback sub-intent
unmatched, and the orchestrator reports exactly it. -/
theorem C5_witness :
    plan_intention noRowsCollab {} {} "x" = .ok (.mk
      { id := "root", intent := "x", depth := 0,
        scheduled_start := "N/A", type := "leaf_unresolved",
        reason := "Some sub-intents have no matched actions.",
        unmatched_sub_intentions := ["x"],
        matched_sub_intentions := [],
        debug_sub_intentions := ["x"] } []) := by
  have hb : break_down_intention noRowsCollab {} (DomainProfile.normalize {} "x") =
      [{ intent := "x",
         slots := [("_source_text", "x"), ("_normalized_text", "x")] }] := by
    norm_num +decide [break_down_intention, noRowsCollab, demoCollab,
      DomainProfile.normalize, pyStrip, pyStripL, collapseWs, collapseWsAux,
      isPySpace]
  have hm : match_actions noRowsCollab {}
      ({ intent := "x",
         slots := [("_source_text", "x"), ("_normalized_text", "x")] } : SubIntent).intent
      ({ intent := "x",
         slots := [("_source_text", "x"), ("_normalized_text", "x")] } : SubIntent).slots
      {} = .ok ((fun _ => []) ({ intent := "x" } : SubIntent)) := by
    norm_num +decide [match_actions, match_rows, match_one_row, match_scored_row,
      noRowsCollab, demoCollab, search_actions_by_vector, DomainProfile.normalize,
      pyStrip, pyStripL, collapseWs, collapseWsAux, isPySpace,
      startsWithUnderscore, List.mergeSort]
  have := C5_unmatched_all_or_nothing noRowsCollab {} {} "x" (fun _ => [])
    (by
      rw [hb]
      intro s hs
      rw [List.mem_singleton] at hs
      subst hs
      exact hm)
    (by rw [hb]; simp)
  rw [this, hb]
  norm_num +decide [DomainProfile.normalize, pyStrip, pyStripL, collapseWs,
    collapseWsAux, isPySpace]

/-- `match_actions` succeeds whenever the embedding call and the index
bootstrap succeed (the vector search and schema lookup swallow their own
failures). -/
lemma match_actions_isOk (C : Collab) (dom : DomainProfile)
    (hembed : ∀ s, ∃ v, C.embed s = .ok v)
    (hidx : ∀ n, ∃ u, C.ensure_index n = .ok u)
    (i : String) (sl : List (String × String)) (args : MatchArgs) :
    ∃ ms, match_actions C dom i sl args = .ok ms := by
  obtain ⟨v, hv⟩ := hembed (dom.normalize i)
  obtain ⟨u, hu⟩ := hidx v.length
  unfold match_actions
  simp only []
  simp only [hv]
  simp only [hu]
  exact ⟨_, rfl⟩

lemma match_stage_isOk (C : Collab) (dom : DomainProfile)
    (hembed : ∀ s, ∃ v, C.embed s = .ok v)
    (hidx : ∀ n, ∃ u, C.ensure_index n = .ok u) :
    ∀ subs : List SubIntent, ∃ p, match_stage C dom subs = .ok p
  | [] => ⟨([], []), rfl⟩
  | s :: rest => by
    obtain ⟨ms, hms⟩ := match_actions_isOk C dom hembed hidx s.intent s.slots {}
    obtain ⟨⟨unm, pairs⟩, hp⟩ := match_stage_isOk C dom hembed hidx rest
    unfold match_stage
    rw [hms, hp]
    by_cases he : ms.isEmpty = true <;> simp [he]

lemma to_prompt_format_loop_isOk {C : Collab}
    (hread : ∀ a, ∃ ks, C.read_param_keys a = .ok ks) :
    ∀ (actions : List ActionMatch) (known : List (String × String)),
      ∃ m, to_prompt_format_loop C known actions = .ok m
  | [], known => ⟨known, rfl⟩
  | a :: rest, known => by
    obtain ⟨ks, hks⟩ := hread a.action.name
    unfold to_prompt_format_loop
    simp only []
    rw [hks]
    exact to_prompt_format_loop_isOk hread rest _

lemma select_actions_loop_isOk (C : Collab) (dom : DomainProfile)
    (hembed : ∀ s, ∃ v, C.embed s = .ok v)
    (hidx : ∀ n, ∃ u, C.ensure_index n = .ok u) :
    ∀ (subs : List SubIntent) (acc : List (String × ActionMatch)),
      ∃ m, select_actions_loop C dom acc subs = .ok m
  | [], acc => ⟨acc, rfl⟩
  | s :: rest, acc => by
    obtain ⟨ms, hms⟩ := match_actions_isOk C dom hembed hidx s.intent [] {}
    unfold select_actions_loop
    rw [hms]
    exact select_actions_loop_isOk C dom hembed hidx rest _

lemma select_actions_isOk (C : Collab) (dom : DomainProfile)
    (hembed : ∀ s, ∃ v, C.embed s = .ok v)
    (hidx : ∀ n, ∃ u, C.ensure_index n = .ok u)
    (hread : ∀ a, ∃ ks, C.read_param_keys a = .ok ks)
    (subs : List SubIntent) :
    ∃ m, select_actions C dom subs = .ok m := by
  obtain ⟨am, ham⟩ := select_actions_loop_isOk C dom hembed hidx subs []
  unfold select_actions
  rw [ham]
  exact to_prompt_format_loop_isOk hread _ _

/-- C4 counterexample: an exception in the embedding service propagates out
of `plan_intention` — the caller sees a raised error, not a
`leaf_unresolved` verdict. -/
theorem C4_counterexample :
    plan_intention embedFailCollab {} {} "x" = .error "embed down" := by
  norm_num +decide [plan_intention, match_stage, match_actions,
    break_down_intention, embedFailCollab, demoCollab,
    DomainProfile.normalize, pyStrip, pyStripL, collapseWs, collapseWsAux,
    isPySpace]

/-- C4 amended: if the embedding service, the index bootstrap and the
selector's parameter-key read never raise, `plan_intention` always returns
a plan tree or a `leaf_unresolved` verdict, for any behavior (including
raised exceptions) of sub-intent parsing, the similarity search, the
schema lookup, the decomposer, and the scope gate. -/
theorem C4_no_crash (C : Collab) (dom : DomainProfile) (cfg : Config)
    (t : String)
    (hembed : ∀ s, ∃ v, C.embed s = .ok v)
    (hidx : ∀ n, ∃ u, C.ensure_index n = .ok u)
    (hread : ∀ a, ∃ ks, C.read_param_keys a = .ok ks) :
    ∃ node, plan_intention C dom cfg t = .ok node := by
  obtain ⟨⟨unm, pairs⟩, hstage⟩ := match_stage_isOk C dom hembed hidx
    (break_down_intention C dom (dom.normalize t))
  unfold plan_intention
  simp only []
  rw [hstage]
  by_cases hu : unm.isEmpty = true
  · simp only [hu, Bool.not_true, Bool.false_eq_true, if_false]
    obtain ⟨chosen, hsel⟩ := select_actions_isOk C dom hembed hidx hread
      (pairs.map Prod.fst)
    rw [hsel]
    by_cases hall : (allowed_action_names chosen).isEmpty = true
    · simp only [hall, if_true]
      exact ⟨_, rfl⟩
    · simp only [hall, Bool.false_eq_true, if_false]
      rcases hss : scope_stage C cfg (dom.normalize t) chosen
          (break_down_intention C dom (dom.normalize t))
          (allowed_action_names chosen) with _ | nd
      · simp only []
        split
        · exact ⟨_, rfl⟩
        · exact ⟨_, rfl⟩
      · exact ⟨nd, rfl⟩
  · simp only [hu, Bool.not_false, if_true]
    exact ⟨_, rfl⟩

/-- C4 witness: with functioning embedding/index/kg-read services and every
other collaborator failing, planning still returns a verdict. -/
theorem C4_witness : ∃ node, plan_intention flakyCollab {} {} "x" = .ok node :=
  C4_no_crash flakyCollab {} {} "x" (fun _ => ⟨[1], rfl⟩) (fun _ => ⟨(), rfl⟩)
    (fun _ => ⟨[], rfl⟩)

/-- Every early return of the scope gate is an unresolved verdict. -/
lemma scope_stage_unresolved {C : Collab} {cfg : Config} {norm : String}
    {chosen : List (String × String)} {subs : List SubIntent}
    {allowed : List String} {nd : PlanNode}
    (h : scope_stage C cfg norm chosen subs allowed = some nd) :
    nd.data.type = "leaf_unresolved" := by
  unfold scope_stage at h
  by_cases he : (!cfg.enable_scope_gate) = true
  · rw [if_pos he] at h
    exact absurd h (by simp)
  · rw [if_neg he] at h
    simp only [] at h
    rcases hd : C.scope_decide norm
        (chosen.map fun kv => (action_name_from_sig kv.1, kv.2)) with e | decision
    · simp only [hd] at h
      split at h
      · injection h with h
        subst h
        rfl
      · exact absurd h (by simp)
    · simp only [hd] at h
      split at h
      · injection h with h
        subst h
        rfl
      · exact absurd h (by simp)

/-- If validation reports no illegal atoms, every atomic node with a
nonempty extracted action name names an allowed action. -/
lemma collect_illegal_atoms_eq_nil {allowed : List String} {p : PlanNode}
    (h : collect_illegal_atoms allowed p = []) :
    ∀ n ∈ walkPlan p, atomic_flag n →
      ∀ act, n.data.action = some act → ¬ extract_action_name act = "" →
        extract_action_name act ∈ allowed := by
  intro n hn hat act hact hne
  unfold collect_illegal_atoms at h
  rw [List.filterMap_eq_nil_iff] at h
  have hmem : n ∈ (walkPlan p).filter
      (fun n => n.data.type = "atomic" || n.data.is_atomic) := by
    refine List.mem_filter.mpr ⟨hn, ?_⟩
    rcases hat with h1 | h2
    · simp [h1]
    · simp [h2]
  have hnone := h n hmem
  rw [hact] at hnone
  by_contra hnotin
  simp [hne, hnotin] at hnone

/-- C1 amended: a returned non-`leaf_unresolved` plan tree contains no
atomic node whose extracted action name is nonempty and outside the allowed
set (nodes without an action string, or with an empty extracted name, are
skipped by validation — see `C1_counterexample` and C10). -/
theorem C1_validation_invariant (C : Collab) (dom : DomainProfile)
    (cfg : Config) (t : String) (node : PlanNode)
    (hok : plan_intention C dom cfg t = .ok node)
    (hnl : ¬ node.data.type = "leaf_unresolved") :
    ∀ n ∈ walkPlan node, atomic_flag n →
      ∀ act, n.data.action = some act → ¬ extract_action_name act = "" →
        extract_action_name act ∈ node.data.debug_allowed_actions := by
  unfold plan_intention at hok
  simp only [] at hok
  rcases hstage : match_stage C dom
      (break_down_intention C dom (dom.normalize t)) with e | ⟨unm, pairs⟩
  · rw [hstage] at hok
    exact absurd hok (by simp)
  · rw [hstage] at hok
    by_cases hu : unm.isEmpty = true
    swap
    · simp only [hu, Bool.not_false, Bool.false_eq_true, if_true] at hok
      injection hok with hok
      subst hok
      exact absurd rfl hnl
    · simp only [hu, Bool.not_true, Bool.false_eq_true, if_false] at hok
      rcases hsel : select_actions C dom (pairs.map Prod.fst) with e | chosen
      · rw [hsel] at hok
        exact absurd hok (by simp)
      · rw [hsel] at hok
        by_cases hall : (allowed_action_names chosen).isEmpty = true
        · simp only [hall, if_true] at hok
          injection hok with hok
          subst hok
          exact absurd rfl hnl
        · simp only [hall, Bool.false_eq_true, if_false] at hok
          rcases hss : scope_stage C cfg (dom.normalize t) chosen
              (break_down_intention C dom (dom.normalize t))
              (allowed_action_names chosen) with _ | nd
          · rw [hss] at hok
            simp only [] at hok
            by_cases hill : (collect_illegal_atoms (allowed_action_names chosen)
                (RecursivePlanner.plan C.decompose (dom.normalize t)
                  chosen 0 4 "N/A" "root")).isEmpty = true
            swap
            · simp only [hill, Bool.not_false, Bool.false_eq_true, if_true] at hok
              injection hok with hok
              subst hok
              exact absurd rfl hnl
            · simp only [hill, Bool.not_true, Bool.false_eq_true, if_false] at hok
              injection hok with hok
              have hnil := List.isEmpty_iff.mp hill
              rcases hplan : RecursivePlanner.plan C.decompose (dom.normalize t)
                  chosen 0 4 "N/A" "root" with ⟨d, subps⟩
              rw [hplan] at hok hnil
              have hprop := collect_illegal_atoms_eq_nil hnil
              subst hok
              intro n hn hat act hact hne
              unfold attach_debug at hn ⊢
              simp only [PlanNode.data]
              rw [walkPlan] at hn
              rcases List.mem_cons.mp hn with rfl | hn'
              · refine hprop (.mk d subps) ?_ ?_ act ?_ hne
                · rw [walkPlan]
                  exact List.mem_cons_self _ _
                · rcases hat with h1 | h2
                  · exact Or.inl h1
                  · exact Or.inr h2
                · exact hact
              · refine hprop n ?_ hat act hact hne
                rw [walkPlan]
                exact List.mem_cons_of_mem _ hn'
          · rw [hss] at hok
            injection hok with hok
            subst hok
            exact absurd (scope_stage_unresolved hss) hnl

/-- C1 counterexample: the decomposer may emit an atomic node whose
`action` string is empty; its extracted name `""` is not in the allowed set
`{"A", "B"}`, yet `plan_intention` returns the tree as a successful
(non-`leaf_unresolved`) plan instead of rejecting it — validation skips
empty extracted names. -/
theorem C1_counterexample :
    (((plan_intention demoCollab {} {} "do").toOption.map fun nd =>
      (nd.data.type, nd.data.debug_allowed_actions,
       (walkPlan nd).map fun n => (n.data.type, n.data.is_atomic, n.data.action)))
      = some ("composite", ["A", "B"],
          [("composite", false, none), ("atomic", true, some "")])) ∧
    ¬ (extract_action_name "" ∈ ["A", "B"]) := by
  constructor
  · norm_num +decide [plan_intention, match_stage, match_actions, match_rows,
      match_one_row, match_scored_row, break_down_intention, demoCollab,
      search_actions_by_vector, alias_score, row_params_schema, row_param_result,
      gate_reject, score_params, required_gate_failure, get_slot_value,
      score_param_step, DomainProfile.normalize, pyStrip, pyStripL, collapseWs,
      collapseWsAux, isPySpace, pyLower, setAssoc, List.lookup,
      ActionMatch.from_base, List.mergeSort, startsWithUnderscore,
      strContainsSub, listContainsSub, joinWith, List.filterMap_cons,
      List.filter_cons, beq_eq_decide, select_actions, select_actions_loop,
      update_best, to_prompt_format, to_prompt_format_loop, fmt_param_key,
      fmt_param_key_part, splitUnderscore, allowed_action_names, dedupAppend,
      action_name_from_sig, extract_action_name, collect_illegal_atoms,
      scope_stage, attach_debug, RecursivePlanner.plan, plan_aux, walkPlan,
      walkPlans, takeBeforeChar, strContainsChar, PlanNode.data]
  · decide

/-- C1 witness: a successful plan whose atomic step names the allowed
action `B`. -/
theorem C1_witness :
    ∃ node, plan_intention legalAtomCollab {} {} "do" = .ok node ∧
      ¬ node.data.type = "leaf_unresolved" ∧
      ∀ n ∈ walkPlan node, atomic_flag n →
        ∀ act, n.data.action = some act → ¬ extract_action_name act = "" →
          extract_action_name act ∈ node.data.debug_allowed_actions := by
  have heval : ((plan_intention legalAtomCollab {} {} "do").toOption.map
      fun nd => nd.data.type) = some "composite" := by
    norm_num +decide [plan_intention, match_stage, match_actions, match_rows,
      match_one_row, match_scored_row, break_down_intention, legalAtomCollab,
      legalAtomDecomp, demoCollab,
      search_actions_by_vector, alias_score, row_params_schema, row_param_result,
      gate_reject, score_params, required_gate_failure, get_slot_value,
      score_param_step, DomainProfile.normalize, pyStrip, pyStripL, collapseWs,
      collapseWsAux, isPySpace, pyLower, setAssoc, List.lookup,
      ActionMatch.from_base, List.mergeSort, startsWithUnderscore,
      strContainsSub, listContainsSub, joinWith, List.filterMap_cons,
      List.filter_cons, beq_eq_decide, select_actions, select_actions_loop,
      update_best, to_prompt_format, to_prompt_format_loop, fmt_param_key,
      fmt_param_key_part, splitUnderscore, allowed_action_names, dedupAppend,
      action_name_from_sig, extract_action_name, collect_illegal_atoms,
      scope_stage, attach_debug, RecursivePlanner.plan, plan_aux, walkPlan,
      walkPlans, takeBeforeChar, strContainsChar, PlanNode.data]
  rcases hok : plan_intention legalAtomCollab {} {} "do" with e | node
  · rw [hok] at heval
    exact absurd heval (by simp [Except.toOption])
  · rw [hok] at heval
    simp only [Except.toOption, Option.map_some'] at heval
    have hty : node.data.type = "composite" := Option.some.inj heval
    have hnl : ¬ node.data.type = "leaf_unresolved" := by
      rw [hty]
      decide
    exact ⟨node, rfl, hnl,
      C1_validation_invariant legalAtomCollab {} {} "do" node hok hnl⟩

/-- C10: validation skips atomic nodes that carry no action string, so a
plan tree all of whose atomic nodes lack an `action` field (for example
`leaf_no_children` or `leaf_forced_atomic` leaves) passes validation and is
returned as a successful plan (given the earlier stages succeeded and the
scope gate let the request through). -/
theorem C10_validation_skips_actionless (C : Collab) (dom : DomainProfile)
    (cfg : Config) (t : String)
    (pairs : List (SubIntent × List ActionMatch))
    (chosen : List (String × String))
    (hstage : match_stage C dom
      (break_down_intention C dom (dom.normalize t)) = .ok ([], pairs))
    (hsel : select_actions C dom (pairs.map Prod.fst) = .ok chosen)
    (hall : ¬ allowed_action_names chosen = [])
    (hscope : scope_stage C cfg (dom.normalize t) chosen
      (break_down_intention C dom (dom.normalize t))
      (allowed_action_names chosen) = none)
    (hact : ∀ n ∈ walkPlan (RecursivePlanner.plan C.decompose
        (dom.normalize t) chosen 0 4 "N/A" "root"),
      atomic_flag n → n.data.action = none) :
    collect_illegal_atoms (allowed_action_names chosen)
      (RecursivePlanner.plan C.decompose (dom.normalize t) chosen
        0 4 "N/A" "root") = [] ∧
    plan_intention C dom cfg t = .ok
      (attach_debug (RecursivePlanner.plan C.decompose (dom.normalize t)
          chosen 0 4 "N/A" "root")
        (break_down_intention C dom (dom.normalize t))
        (allowed_action_names chosen)) := by
  have hnil : collect_illegal_atoms (allowed_action_names chosen)
      (RecursivePlanner.plan C.decompose (dom.normalize t) chosen
        0 4 "N/A" "root") = [] := by
    unfold collect_illegal_atoms
    rw [List.filterMap_eq_nil_iff]
    intro n hn
    obtain ⟨hw, hb⟩ := List.mem_filter.mp hn
    have hflag : atomic_flag n := by
      rcases Bool.or_eq_true_iff.mp hb with h1 | h2
      · exact Or.inl (by simpa using h1)
      · exact Or.inr h2
    rw [hact n hw hflag]
  refine ⟨hnil, ?_⟩
  unfold plan_intention
  simp only []
  rw [hstage]
  simp only [List.isEmpty_nil, Bool.not_false, Bool.false_eq_true, if_false]
  rw [hsel]
  have hall' : (allowed_action_names chosen).isEmpty = false := by
    simpa [List.isEmpty_iff] using hall
  simp only [hall', Bool.false_eq_true, if_false]
  rw [hscope]
  simp only []
  rw [hnil]
  simp

/-- C10 witness: the decomposer returns no sub-intents, so the root is an
actionless atomic `leaf_no_children` node, which validation accepts. -/
theorem C10_witness :
    ∃ pairs chosen,
      match_stage noChildrenCollab {}
        (break_down_intention noChildrenCollab {}
          (DomainProfile.normalize {} "x")) = .ok ([], pairs) ∧
      select_actions noChildrenCollab {} (pairs.map Prod.fst) = .ok chosen ∧
      collect_illegal_atoms (allowed_action_names chosen)
        (RecursivePlanner.plan noChildrenCollab.decompose
          (DomainProfile.normalize {} "x") chosen 0 4 "N/A" "root") = [] ∧
      plan_intention noChildrenCollab {} {} "x" = .ok
        (attach_debug (RecursivePlanner.plan noChildrenCollab.decompose
            (DomainProfile.normalize {} "x") chosen 0 4 "N/A" "root")
          (break_down_intention noChildrenCollab {}
            (DomainProfile.normalize {} "x"))
          (allowed_action_names chosen)) := by
  have hb : break_down_intention noChildrenCollab {}
      (DomainProfile.normalize {} "x") = [fallbackSubX] := by
    norm_num +decide [break_down_intention, noChildrenCollab, demoCollab,
      fallbackSubX, DomainProfile.normalize, pyStrip, pyStripL, collapseWs,
      collapseWsAux, isPySpace]
  obtain ⟨ms, hms, hne⟩ : ∃ ms, match_actions noChildrenCollab {}
      fallbackSubX.intent fallbackSubX.slots {} = .ok ms ∧
      ms.isEmpty = false := by
    have heval : ((match_actions noChildrenCollab {}
        fallbackSubX.intent fallbackSubX.slots {}).toOption.map
          fun l => l.isEmpty) = some false := by
      norm_num +decide [match_actions, match_rows, match_one_row,
        match_scored_row, noChildrenCollab, demoCollab, fallbackSubX,
        search_actions_by_vector, alias_score, row_params_schema,
        row_param_result, gate_reject, DomainProfile.normalize, pyStrip,
        pyStripL, collapseWs, collapseWsAux, isPySpace, pyLower,
        ActionMatch.from_base, List.mergeSort, startsWithUnderscore,
        strContainsSub, listContainsSub, List.filterMap_cons, beq_eq_decide]
    rcases hv : match_actions noChildrenCollab {}
        fallbackSubX.intent fallbackSubX.slots {} with e | l
    · rw [hv] at heval
      exact absurd heval (by simp [Except.toOption])
    · rw [hv] at heval
      simp only [Except.toOption, Option.map_some'] at heval
      exact ⟨l, rfl, Option.some.inj heval⟩
  have hstage : match_stage noChildrenCollab {}
      (break_down_intention noChildrenCollab {}
        (DomainProfile.normalize {} "x")) =
      .ok ([], [(fallbackSubX, ms)]) := by
    rw [hb]
    unfold match_stage
    rw [hms]
    unfold match_stage
    simp [hne]
  have hsel : select_actions noChildrenCollab {}
      ([(fallbackSubX, ms)].map Prod.fst) =
      .ok [("A(P)", "dA"), ("B()", "dB")] := by
    norm_num +decide [select_actions, select_actions_loop, update_best,
      to_prompt_format, to_prompt_format_loop, fmt_param_key,
      fmt_param_key_part, splitUnderscore, joinWith, setAssoc, List.lookup,
      match_actions, match_rows, match_one_row, match_scored_row, fallbackSubX,
      noChildrenCollab, demoCollab, search_actions_by_vector, alias_score,
      row_params_schema, row_param_result, gate_reject,
      DomainProfile.normalize, pyStrip, pyStripL, collapseWs, collapseWsAux,
      isPySpace, pyLower, ActionMatch.from_base, List.mergeSort,
      startsWithUnderscore, strContainsSub, listContainsSub,
      List.filterMap_cons, beq_eq_decide]
  have h10 := C10_validation_skips_actionless noChildrenCollab {} {} "x"
    [(fallbackSubX, ms)]
    [("A(P)", "dA"), ("B()", "dB")] hstage hsel
    (by
      norm_num +decide [allowed_action_names, dedupAppend,
        action_name_from_sig, pyStrip, pyStripL, isPySpace, takeBeforeChar,
        strContainsChar])
    (by simp [scope_stage])
    (by
      intro n hn _
      revert hn
      norm_num +decide [RecursivePlanner.plan, plan_aux, noChildrenCollab,
        demoCollab, walkPlan, walkPlans, DomainProfile.normalize, pyStrip,
        pyStripL, collapseWs, collapseWsAux, isPySpace]
      intro hn
      subst hn
      rfl)
  exact ⟨_, _, hstage, hsel, h10.1, h10.2⟩

/-- `lookup` on an association list fails exactly off its key set. -/
lemma assoc_lookup_none {α : Type} {l : List (String × α)} {k : String} :
    l.lookup k = none ↔ ¬ k ∈ l.map Prod.fst := by
  induction l with
  | nil => simp
  | cons p ps ih =>
    rcases p with ⟨k', v⟩
    by_cases hk : k = k' <;> simp [List.lookup, hk, ih, beq_eq_decide]

/-- Overwriting the value at a key leaves the key list unchanged. -/
lemma map_fst_overwrite {α : Type} (l : List (String × α)) (k : String) (v : α) :
    (l.map fun p => if p.1 = k then (p.1, v) else p).map Prod.fst =
      l.map Prod.fst := by
  induction l with
  | nil => rfl
  | cons p ps ih =>
    by_cases hp : p.1 = k <;> simp [hp, ih]

/-- A best-match update adds the action name only if it is new, keeping
positions otherwise (Python dict semantics). -/
lemma update_best_keys (map : List (String × ActionMatch)) (m : ActionMatch) :
    (update_best map m).map Prod.fst =
      if m.action.name ∈ map.map Prod.fst then map.map Prod.fst
      else map.map Prod.fst ++ [m.action.name] := by
  unfold update_best
  rcases hl : map.lookup m.action.name with _ | old
  · simp only [hl]
    rw [if_neg (assoc_lookup_none.mp hl)]
    simp
  · simp only [hl]
    have hmem : m.action.name ∈ map.map Prod.fst := by
      by_contra hc
      rw [assoc_lookup_none.mpr hc] at hl
      exact absurd hl (by simp)
    rw [if_pos hmem]
    split
    · exact map_fst_overwrite map m.action.name m
    · rfl

/-- The key list of the selector's `action_map` fold is the deduplicated,
first-occurrence-ordered list of action names of the processed matches. -/
lemma foldl_update_best_keys :
    ∀ (ms : List ActionMatch) (acc : List (String × ActionMatch)),
      ((ms.foldl update_best acc).map Prod.fst) =
        dedupAppend (acc.map Prod.fst) (ms.map fun m => m.action.name)
  | [], acc => by simp [dedupAppend]
  | m :: ms, acc => by
    rw [List.foldl_cons, foldl_update_best_keys ms (update_best acc m),
      update_best_keys]
    simp only [dedupAppend, List.map_cons, List.foldl_cons]

/-- The selector loop, given each sub-intention's (slot-free) match list,
folds all those matches through the best-match map. -/
lemma select_actions_loop_eq {C : Collab} {dom : DomainProfile}
    {g : SubIntent → List ActionMatch} :
    ∀ (subs : List SubIntent) (acc : List (String × ActionMatch)),
      (∀ s ∈ subs, match_actions C dom s.intent [] {} = .ok (g s)) →
      select_actions_loop C dom acc subs =
        .ok ((subs.flatMap g).foldl update_best acc)
  | [], acc, _ => by simp [select_actions_loop]
  | s :: rest, acc, h => by
    unfold select_actions_loop
    simp only [h s (List.mem_cons_self s rest)]
    rw [select_actions_loop_eq rest ((g s).foldl update_best acc)
      fun x hx => h x (List.mem_cons_of_mem s hx)]
    rw [List.flatMap_cons, List.foldl_append]

/-- C9 counterexample: with effective slots, the matching stage (gating on
parameters) returns only `B`, but the selector — which re-runs the matcher
without slots — also admits `A`: the allowed map gains an action absent
from the per-sub-intent lists computed in the matching stage. -/
theorem C9_counterexample :
    ((match_actions demoCollab {} slottedSub.intent slottedSub.slots {}).toOption.map
      fun l => l.map fun m => m.action.name) = some ["B"] ∧
    ((select_actions demoCollab {} [slottedSub]).toOption.map
      fun l => l.map Prod.fst) = some ["A(P)", "B()"] ∧
    ¬ ("A" ∈ (["B"] : List String)) := by
  refine ⟨?_, ?_, by decide⟩
  · norm_num +decide [match_actions, match_rows, match_one_row,
      match_scored_row, demoCollab, slottedSub, search_actions_by_vector,
      alias_score, row_params_schema, row_param_result, gate_reject,
      score_params, required_gate_failure, get_slot_value, score_param_step,
      DomainProfile.normalize, pyStrip, pyStripL, collapseWs, collapseWsAux,
      isPySpace, pyLower, setAssoc, List.lookup, ActionMatch.from_base,
      List.mergeSort, startsWithUnderscore, strContainsSub, listContainsSub,
      joinWith, List.filterMap_cons, List.filter_cons, beq_eq_decide]
  · norm_num +decide [select_actions, select_actions_loop, update_best,
      to_prompt_format, to_prompt_format_loop, fmt_param_key,
      fmt_param_key_part, splitUnderscore, joinWith, setAssoc, List.lookup,
      match_actions, match_rows, match_one_row, match_scored_row, demoCollab,
      slottedSub, search_actions_by_vector, alias_score, row_params_schema,
      row_param_result, gate_reject, DomainProfile.normalize, pyStrip,
      pyStripL, collapseWs, collapseWsAux, isPySpace, pyLower,
      ActionMatch.from_base, List.mergeSort, startsWithUnderscore,
      strContainsSub, listContainsSub, List.filterMap_cons, beq_eq_decide]

/-- C9 amended: `select_actions` merges and deduplicates the per-sub-intent
match lists it recomputes itself — calling the matcher with the text only
(no slots, default arguments), not the lists from the matching stage.  Its
map is the prompt format of the per-name best matches of those recomputed
lists; the fold's keys are exactly the distinct action names occurring in
them (first-occurrence order), none added or lost. -/
theorem C9_selector_merges_own_lists (C : Collab) (dom : DomainProfile)
    (subs : List SubIntent) (g : SubIntent → List ActionMatch)
    (m : List (String × String))
    (h : ∀ s ∈ subs, match_actions C dom s.intent [] {} = .ok (g s))
    (hm : select_actions C dom subs = .ok m) :
    (((subs.flatMap g).foldl update_best []).map Prod.fst) =
      dedupAppend [] ((subs.flatMap g).map fun mm => mm.action.name) ∧
    to_prompt_format C (((subs.flatMap g).foldl update_best []).map Prod.snd)
      = .ok m := by
  constructor
  · simpa using foldl_update_best_keys (subs.flatMap g) []
  · unfold select_actions at hm
    rw [select_actions_loop_eq subs [] h] at hm
    exact hm

/-- C9 witness: the slot-free selector round on the demo catalog. -/
theorem C9_witness :
    ∃ ms, match_actions demoCollab {} "t" [] {} = .ok ms ∧
      ((([⟨"t", []⟩] : List SubIntent).flatMap (fun _ => ms)).foldl
          update_best []).map Prod.fst =
        dedupAppend []
          ((([⟨"t", []⟩] : List SubIntent).flatMap (fun _ => ms)).map
            fun mm => mm.action.name) ∧
      to_prompt_format demoCollab
          (((([⟨"t", []⟩] : List SubIntent).flatMap (fun _ => ms)).foldl
            update_best []).map Prod.snd) =
        .ok [("A(P)", "dA"), ("B()", "dB")] := by
  obtain ⟨ms, hms⟩ : ∃ ms, match_actions demoCollab {} "t" [] {} = .ok ms := by
    unfold match_actions
    simp [demoCollab]
  have hsel : select_actions demoCollab {} [⟨"t", []⟩] =
      .ok [("A(P)", "dA"), ("B()", "dB")] := by
    norm_num +decide [select_actions, select_actions_loop, update_best,
      to_prompt_format, to_prompt_format_loop, fmt_param_key,
      fmt_param_key_part, splitUnderscore, joinWith, setAssoc, List.lookup,
      match_actions, match_rows, match_one_row, match_scored_row, demoCollab,
      search_actions_by_vector, alias_score, row_params_schema,
      row_param_result, gate_reject, DomainProfile.normalize, pyStrip,
      pyStripL, collapseWs, collapseWsAux, isPySpace, pyLower,
      ActionMatch.from_base, List.mergeSort, startsWithUnderscore,
      strContainsSub, listContainsSub, List.filterMap_cons, beq_eq_decide]
  have h9 := C9_selector_merges_own_lists demoCollab {} [⟨"t", []⟩]
    (fun _ => ms) [("A(P)", "dA"), ("B()", "dB")]
    (by
      intro s hs
      rw [List.mem_singleton] at hs
      subst hs
      exact hms)
    hsel
  exact ⟨ms, hms, h9.1, h9.2⟩

end Gias
